import Mathlib

/-!
Shallow embedding of the CSV → QuickBooks batch pipeline of this repository
(src/lib/processor.ts, src/lib/qbo-service.ts, src/lib/utils.ts,
src/lib/types.ts), together with proofs about its specified properties.

External calls are modelled by an environment `Env` whose fields give the
(post-retry) outcome of each call of the QBOService; the interpreter for
`processBillGroup` / `processAll` additionally returns the list of external
calls that were made, in order, and the updated processed-key set.
-/

namespace QBO

/-- Row of the parsed CSV (src/lib/types.ts, `CSVRow`). All fields are raw
strings; a missing (undefined) field is modelled by the empty string, which
agrees with every use site (`?.trim()` falsiness and `||` / `? :`
truthiness coincide for `undefined` and `""`). The `Category` property is
absent from the `CSVRow` interface in src/lib/types.ts but is read by
processor.ts (`row.Category?.trim()`), so it is part of the runtime row. -/
structure CSVRow where
  BillNumber : String
  Location : String
  ProjectName : String
  CustomerName : String
  VendorName : String
  BillDate : String
  BillLineDescription : String
  BillLineAmount : String
  Currency : String
  InvoiceDate : String
  PONumber : String
  PointOfContact : String
  AttachmentFiles : String
  Category : String
deriving DecidableEq, Repr

/-- Processing settings (src/lib/types.ts, `ProcessingSettings`). -/
structure ProcessingSettings where
  autoCreate : Bool
  alsoAttachToInvoice : Bool
  fromBillableExpenses : Bool
  defaultCurrency : String
  strictDateParsing : Bool
  environment : String
deriving DecidableEq, Repr

/-- A field-level validation error (src/lib/types.ts, `ValidationError`). -/
structure ValidationError where
  row : Nat
  field : String
  message : String
deriving DecidableEq, Repr

/-- Closed status enumeration of a `ProcessingResult` (src/lib/types.ts). -/
inductive RStatus where
  | success
  | error
  | needs_review
  | skipped
deriving DecidableEq, Repr

/-- Status of one attachment upload (src/lib/types.ts, `AttachmentResult`). -/
inductive AStatus where
  | success
  | error
deriving DecidableEq, Repr

/-- Per-file attachment outcome (src/lib/types.ts, `AttachmentResult`). -/
structure AttachmentResult where
  filename : String
  attachableId : Option String
  status : AStatus
  error : Option String
deriving DecidableEq, Repr

/-- The rowIndex-independent part of a `ProcessingResult`
(`Omit<ProcessingResult, "rowIndex">` as returned by `processBillGroup`). -/
structure GroupRes where
  status : RStatus
  customerId : Option String
  subCustomerId : Option String
  vendorId : Option String
  billId : Option String
  invoiceId : Option String
  attachmentResults : Option (List AttachmentResult)
  error : Option String
  message : Option String
  idempotencyKey : Option String
deriving DecidableEq, Repr

/-- One per-row outcome of the execute pass (src/lib/types.ts,
`ProcessingResult`): a row index together with the replicated group result. -/
structure ProcessingResult where
  rowIndex : Nat
  res : GroupRes
deriving DecidableEq, Repr

/-- One per-row outcome of the dry-run pass (src/lib/types.ts,
`DryRunResult`). -/
structure DryRunResult where
  rowIndex : Nat
  actions : List String
  warnings : List String
  errors : List String
deriving DecidableEq, Repr

/-- An opaque fault thrown by an external call, keeping exactly the pieces the
processor inspects: `error.message`, `error.fault?.error?.[0]?.code`,
`.message` and `.detail` of that first fault entry, the `toString()`
rendering when it is not "[object Object]", and the JSON fallback.
A thrown raw string is covered by the `message` field. -/
structure Fault where
  message : Option String
  code : Option String
  faultMessage : Option String
  faultDetail : Option String
  asString : Option String
  json : String
deriving DecidableEq, Repr

/-- A bill line (src/lib/types.ts `QBOBill.Line` entries as built by
`processBillGroup`: amount, description, expense account, sub-customer,
optional class; `DetailType` and `BillableStatus` are the constant strings
"AccountBasedExpenseLineDetail" / "Billable" and are left implicit). -/
structure BillLine where
  amount : Int
  description : String
  accountRef : String
  customerRef : String
  classRef : Option String
deriving DecidableEq, Repr

/-- The bill document handed to `qboService.createBill` by
`processBillGroup` (src/lib/processor.ts lines 675-689). -/
structure Bill where
  docNumber : String
  vendorRef : String
  txnDate : String
  lines : List BillLine
  departmentRef : Option String
  currencyRef : Option String
deriving DecidableEq, Repr

/-- The invoice document built inside
`createInvoiceFromBillableExpenses` (src/lib/qbo-service.ts lines 283-319);
`pointOfContact` is the `StringValue` of the "Point of Contact" custom field
when that field is set. -/
structure Invoice where
  customerRef : String
  txnDate : String
  poNumber : Option String
  pointOfContact : Option String
  currencyRef : Option String
deriving DecidableEq, Repr

/-- One external call made by the pipeline, recorded in order. -/
inductive Call where
  | findCustomer (name : String)
  | createCustomer (name : String) (parentRef : Option String)
  | findVendor (name : String)
  | createVendor (name : String)
  | findDepartment (name : String)
  | findClass (name : String)
  | getExpenseAccount
  | createBill (bill : Bill)
  | uploadAttachment (file : String) (entityType : String) (entityId : String)
  | createInvoice (invoice : Invoice)
deriving DecidableEq, Repr

/-- Environment giving the outcome of every external call (the post-retry
result of each QBOService method, src/lib/qbo-service.ts) plus the two
host-dependent parsers of src/lib/utils.ts. `parseDate` wraps
`utils.parseDate` (whose core is ECMAScript `Date` parsing, kept abstract;
the returned string stands for `date.toISOString().split("T")[0]`), and
`validateAmount` wraps `utils.validateAmount` (whose core is `parseFloat`).
No claim below depends on their internals, only on success/failure. -/
structure Env where
  findCustomerByName : String → Except Fault (Option String)
  createCustomer : String → Option String → Except Fault String
  findVendorByName : String → Except Fault (Option String)
  createVendor : String → Except Fault String
  findDepartmentByName : String → Except Fault (Option String)
  findClassByName : String → Except Fault (Option String)
  getExpenseAccount : Except Fault String
  createBill : Bill → Except Fault String
  uploadAttachment : String → String → String → Except Fault String
  createInvoice : Invoice → Except Fault String
  parseDate : String → Bool → Option String
  validateAmount : String → Option Int

/-- JS string trimming (drop whitespace from both ends), implemented
over the character list so that it reduces inside the kernel. -/
def jsTrim (s : String) : String :=
  String.mk
    (((s.data.dropWhile Char.isWhitespace).reverse.dropWhile Char.isWhitespace).reverse)

/-- Splitting a character list at every occurrence of `c`
(JS `String.prototype.split` with a one-character separator:
`"".split(c)` gives `[""]`). -/
def splitCharList (c : Char) : List Char → List (List Char)
  | [] => [[]]
  | x :: xs =>
    let r := splitCharList c xs
    if x = c then [] :: r
    else
      match r with
      | [] => [[x]]
      | y :: ys => (x :: y) :: ys

/-- JS `s.split(";")`. -/
def jsSplit (s : String) : List String :=
  (splitCharList ';' s.data).map String.mk

/-- JS `Array.prototype.join(sep)`. -/
def jsJoin (sep : String) : List String → String
  | [] => ""
  | [x] => x
  | x :: y :: xs => x ++ sep ++ jsJoin sep (y :: xs)

/-- Empty-row check (src/lib/processor.ts, `isEmptyRow`, lines 25-39): all
eleven tracked fields are empty or whitespace. `Location`, `Currency` and
`AttachmentFiles` are not inspected. -/
def isEmptyRow (row : CSVRow) : Bool :=
  (jsTrim row.BillNumber) == "" &&
  (jsTrim row.ProjectName) == "" &&
  (jsTrim row.CustomerName) == "" &&
  (jsTrim row.VendorName) == "" &&
  (jsTrim row.BillDate) == "" &&
  (jsTrim row.BillLineDescription) == "" &&
  (jsTrim row.BillLineAmount) == "" &&
  (jsTrim row.Category) == "" &&
  (jsTrim row.InvoiceDate) == "" &&
  (jsTrim row.PONumber) == "" &&
  (jsTrim row.PointOfContact) == ""

/-- `/^[A-Z]{3}$/.test s`: exactly three characters, all uppercase ASCII
letters (src/lib/processor.ts line 113). -/
def currencyPattern (s : String) : Bool :=
  s.length == 3 && s.toList.all (fun c => 'A' ≤ c && c ≤ 'Z')

/-- `row.Currency?.trim() || this.settings.defaultCurrency`
(src/lib/processor.ts line 112). -/
def effectiveCurrency (settings : ProcessingSettings) (row : CSVRow) : String :=
  if (jsTrim row.Currency) ≠ "" then (jsTrim row.Currency) else settings.defaultCurrency

/-- Helper producing a one-element error list when the condition holds
(each `if (...) errors.push(...)` of `validateRow`). -/
def errIf (b : Bool) (e : ValidationError) : List ValidationError :=
  if b then [e] else []

/-- The Currency field error pushed by `validateRow`. -/
def currencyErr (i : Nat) : ValidationError :=
  ⟨i, "Currency", "Invalid currency code (must be 3-letter ISO code)"⟩

/-- Row validation (src/lib/processor.ts, `validateRow`, lines 41-122). -/
def validateRow (env : Env) (settings : ProcessingSettings)
    (row : CSVRow) (rowIndex : Nat) : List ValidationError :=
  if isEmptyRow row then []
  else
    errIf ((jsTrim row.BillNumber) == "")
      ⟨rowIndex, "BillNumber", "Bill number is required"⟩ ++
    errIf ((jsTrim row.ProjectName) == "")
      ⟨rowIndex, "ProjectName", "Project name is required"⟩ ++
    errIf ((jsTrim row.CustomerName) == "")
      ⟨rowIndex, "CustomerName", "Customer name is required"⟩ ++
    errIf ((jsTrim row.VendorName) == "")
      ⟨rowIndex, "VendorName", "Vendor name is required"⟩ ++
    errIf (env.parseDate row.BillDate settings.strictDateParsing).isNone
      ⟨rowIndex, "BillDate", "Invalid bill date format"⟩ ++
    errIf (env.parseDate row.InvoiceDate settings.strictDateParsing).isNone
      ⟨rowIndex, "InvoiceDate", "Invalid invoice date format"⟩ ++
    errIf (env.validateAmount row.BillLineAmount).isNone
      ⟨rowIndex, "BillLineAmount", "Invalid amount format"⟩ ++
    errIf (!currencyPattern (effectiveCurrency settings row)) (currencyErr rowIndex)

/-- Message extraction for a caught external fault
(src/lib/processor.ts lines 781-794): `error.message`, else (a thrown raw
string is also covered by `message`), else the first structured fault
entry's message or detail, else the `toString()` rendering, else the JSON
fallback. -/
def extractErrorMessage (e : Fault) : String :=
  match e.message with
  | some m => m
  | none =>
    match e.faultMessage, e.faultDetail with
    | some m, _ => m
    | none, some d => d
    | none, none =>
      match e.asString with
      | some s => s
      | none => e.json

/-- Retry ceiling of `QBOService` (src/lib/qbo-service.ts line 15). -/
def maxRetries : Nat := 3

/-- Base backoff delay in milliseconds (src/lib/qbo-service.ts line 16). -/
def baseDelay : Nat := 1000

/-- `QBOService.retryWithBackoff` (src/lib/qbo-service.ts lines 35-54).
The operation is modelled as a function of the attempt number; the result
is paired with the list of backoff delays that were slept, in order. -/
def retryWithBackoff {α : Type} (op : Nat → Except Fault α)
    (retryCount : Nat) : Except Fault α × List Nat :=
  match op retryCount with
  | .ok a => (.ok a, [])
  | .error e =>
    if h : e.code = some "3200" ∧ retryCount < maxRetries then
      let delay := baseDelay * 2 ^ retryCount
      let rest := retryWithBackoff op (retryCount + 1)
      (rest.1, delay :: rest.2)
    else
      (.error e, [])
termination_by maxRetries + 1 - retryCount
decreasing_by
  omega

/-- One bill group: the trimmed bill number, the rows that share it (input
order) and their original indices (src/lib/processor.ts, the
`Map<string, s\x7brows, indices\x7d>` of `processAll` / `dryRun`). -/
structure Group where
  key : String
  rows : List CSVRow
  idxs : List Nat
deriving DecidableEq, Repr

/-- Insertion step of the grouping loop: append the row to the group with
this key, or append a new group at the end (JS `Map` iteration is
insertion-ordered, so first-seen key order is group order). -/
def insertRow (k : String) (r : CSVRow) (i : Nat) : List Group → List Group
  | [] => [⟨k, [r], [i]⟩]
  | g :: gs =>
    if g.key = k then ⟨g.key, g.rows ++ [r], g.idxs ++ [i]⟩ :: gs
    else g :: insertRow k r i gs

/-- The grouping part of the loop shared (line for line) by `processAll`
(lines 489-517) and `dryRun` (lines 130-154): skip empty rows, skip rows
with a blank trimmed bill number, insert the rest. -/
def gatherGroups : Nat → List Group → List CSVRow → List Group
  | _, gs, [] => gs
  | i, gs, r :: rs =>
    if isEmptyRow r then gatherGroups (i + 1) gs rs
    else if (jsTrim r.BillNumber) = "" then gatherGroups (i + 1) gs rs
    else gatherGroups (i + 1) (insertRow (jsTrim r.BillNumber) r i gs) rs

/-- The groups built from an input row list. -/
def buildGroups (rows : List CSVRow) : List Group :=
  gatherGroups 0 [] rows

/-- The per-row results pushed by the same loop before group processing:
`onEmpty` for empty rows, `onMissing` for non-empty rows with a blank
trimmed bill number (the two passes push different result shapes there,
which is the only difference between their grouping loops). -/
def preResults {α : Type} (onEmpty onMissing : Nat → List α) :
    Nat → List CSVRow → List α
  | _, [] => []
  | i, r :: rs =>
    if isEmptyRow r then onEmpty i ++ preResults onEmpty onMissing (i + 1) rs
    else if (jsTrim r.BillNumber) = "" then
      onMissing i ++ preResults onEmpty onMissing (i + 1) rs
    else preResults onEmpty onMissing (i + 1) rs

/-- Joined field errors, `errors.map(e => field + ": " + message).join("; ")`
(src/lib/processor.ts lines 563-565). -/
def joinErrors (errs : List ValidationError) : String :=
  jsJoin "; " (errs.map (fun e => e.field ++ ": " ++ e.message))

/-- Group validation loop of `processBillGroup` (lines 557-568): returns the
formatted message of the first row whose validation fails, `none` when every
row passes. Rows beyond the length of `indices` cannot occur (both lists are
built in lockstep by the grouping loop). -/
def groupValidate (env : Env) (settings : ProcessingSettings) :
    List CSVRow → List Nat → Option String
  | [], _ => none
  | _ :: _, [] => none
  | r :: rs, i :: is =>
    let errs := validateRow env settings r i
    if errs.isEmpty then groupValidate env settings rs is
    else some ("Row " ++ toString (i + 1) ++ ": " ++ joinErrors errs)

/-- Error-aggregation loop of `dryRun` (lines 163-173): all rows' formatted
errors, concatenated. -/
def collectGroupErrors (env : Env) (settings : ProcessingSettings) :
    List CSVRow → List Nat → List String
  | [], _ => []
  | _ :: _, [] => []
  | r :: rs, i :: is =>
    (validateRow env settings r i).map
      (fun e => "Row " ++ toString (i + 1) ++ ": " ++ e.field ++ ": " ++ e.message)
    ++ collectGroupErrors env settings rs is

/-- Outcome of resolving a required entity (Customer / Vendor). -/
inductive Resolved where
  | ok (id : String)
  | needsReview (msg : String)
  | failed (f : Fault)
deriving DecidableEq, Repr

/-- Step 1 of `processBillGroup` (lines 580-595): find the customer by name;
if absent, create it when `autoCreate` is set, otherwise `needs_review`. -/
def resolveCustomerStep (env : Env) (settings : ProcessingSettings)
    (name : String) : Resolved × List Call :=
  match env.findCustomerByName name with
  | .error f => (.failed f, [.findCustomer name])
  | .ok (some id) => (.ok id, [.findCustomer name])
  | .ok none =>
    if settings.autoCreate then
      match env.createCustomer name none with
      | .error f => (.failed f, [.findCustomer name, .createCustomer name none])
      | .ok id => (.ok id, [.findCustomer name, .createCustomer name none])
    else
      (.needsReview ("Customer \"" ++ name ++
        "\" not found. Enable auto-create or create manually."),
       [.findCustomer name])

/-- Step 2 of `processBillGroup` (lines 597-608): same policy for the
vendor. -/
def resolveVendorStep (env : Env) (settings : ProcessingSettings)
    (name : String) : Resolved × List Call :=
  match env.findVendorByName name with
  | .error f => (.failed f, [.findVendor name])
  | .ok (some id) => (.ok id, [.findVendor name])
  | .ok none =>
    if settings.autoCreate then
      match env.createVendor name with
      | .error f => (.failed f, [.findVendor name, .createVendor name])
      | .ok id => (.ok id, [.findVendor name, .createVendor name])
    else
      (.needsReview ("Vendor \"" ++ name ++
        "\" not found. Enable auto-create or create manually."),
       [.findVendor name])

/-- Step 3 of `processBillGroup` (lines 610-620): optional department
lookup; a missing department is silently omitted. -/
def resolveDepartmentStep (env : Env) (firstRow : CSVRow) :
    Except Fault (Option String) × List Call :=
  if (jsTrim firstRow.Location) ≠ "" then
    match env.findDepartmentByName (jsTrim firstRow.Location) with
    | .error f => (.error f, [.findDepartment (jsTrim firstRow.Location)])
    | .ok d => (.ok d, [.findDepartment (jsTrim firstRow.Location)])
  else (.ok none, [])

/-- Sub-customer (project) resolution inside the line loop (lines 628-638):
always created under the top customer when not found, regardless of
`autoCreate`. -/
def resolveSubCustomer (env : Env) (custId : String) (name : String) :
    Except Fault String × List Call :=
  match env.findCustomerByName name with
  | .error f => (.error f, [.findCustomer name])
  | .ok (some id) => (.ok id, [.findCustomer name])
  | .ok none =>
    match env.createCustomer name (some custId) with
    | .error f => (.error f, [.findCustomer name, .createCustomer name (some custId)])
    | .ok id => (.ok id, [.findCustomer name, .createCustomer name (some custId)])

/-- Optional class lookup inside the line loop (lines 640-649). -/
def resolveClass (env : Env) (category : String) :
    Except Fault (Option String) × List Call :=
  if (jsTrim category) ≠ "" then
    match env.findClassByName (jsTrim category) with
    | .error f => (.error f, [.findClass (jsTrim category)])
    | .ok c => (.ok c, [.findClass (jsTrim category)])
  else (.ok none, [])

/-- Line-building loop of `processBillGroup` (lines 627-668): one bill line
per row, collecting the sub-customer ids in row order. -/
def buildLines (env : Env) (custId : String) (acctId : String) :
    List CSVRow → Except Fault (List BillLine × List String) × List Call
  | [] => (.ok ([], []), [])
  | row :: rest =>
    let s := resolveSubCustomer env custId row.ProjectName
    match s.1 with
    | .error f => (.error f, s.2)
    | .ok subId =>
      let c := resolveClass env row.Category
      match c.1 with
      | .error f => (.error f, s.2 ++ c.2)
      | .ok classId =>
        let amount := (env.validateAmount row.BillLineAmount).getD 0
        let line : BillLine := ⟨amount, row.BillLineDescription, acctId, subId, classId⟩
        let r := buildLines env custId acctId rest
        match r.1 with
        | .error f => (.error f, s.2 ++ c.2 ++ r.2)
        | .ok lr => (.ok (line :: lr.1, subId :: lr.2), s.2 ++ c.2 ++ r.2)

/-- `CurrencyRef` of the bill document (line 680-682):
`firstRow.Currency ? \x7bvalue: firstRow.Currency\x7d : undefined` — the raw
row value when truthy, otherwise no currency at all. -/
def billCurrencyRef (firstRow : CSVRow) : Option String :=
  if firstRow.Currency ≠ "" then some firstRow.Currency else none

/-- Currency argument of the invoice call (line 743):
`firstRow.Currency || this.settings.defaultCurrency`. -/
def invoiceCurrencyArg (settings : ProcessingSettings) (firstRow : CSVRow) : String :=
  if firstRow.Currency ≠ "" then firstRow.Currency else settings.defaultCurrency

/-- Attachment-name collection of `processBillGroup` (lines 693-699): split
each row's `AttachmentFiles` on ";", keep entries with non-blank trim, and
add the trimmed names to one insertion-ordered set across the whole
group. -/
def collectFileNames (rows : List CSVRow) : List String :=
  rows.foldl
    (fun acc row =>
      ((jsSplit row.AttachmentFiles).filter (fun f => (jsTrim f) ≠ "")).foldl
        (fun acc2 f => if (jsTrim f) ∈ acc2 then acc2 else acc2 ++ [(jsTrim f)]) acc)
    []

/-- Bill-attachment loop (lines 701-729): one `AttachmentResult` per name;
a name absent from the upload map records the error
"File not found in uploads" without throwing; an upload fault is caught
per file and recorded with its `error.message`. -/
def attachToBill (env : Env) (files : List String) (billId : String) :
    List String → List AttachmentResult × List Call
  | [] => ([], [])
  | name :: rest =>
    let r := attachToBill env files billId rest
    if name ∈ files then
      match env.uploadAttachment name "Bill" billId with
      | .ok aid =>
        (⟨name, some aid, .success, none⟩ :: r.1,
         .uploadAttachment name "Bill" billId :: r.2)
      | .error f =>
        (⟨name, none, .error, f.message⟩ :: r.1,
         .uploadAttachment name "Bill" billId :: r.2)
    else
      (⟨name, none, .error, some "File not found in uploads"⟩ :: r.1, r.2)

/-- Invoice-attachment loop (lines 747-762): best effort, outcomes are
discarded (failures are logged only), so only the calls are recorded. -/
def attachToInvoice (files : List String) (invId : String) :
    List String → List Call
  | [] => []
  | name :: rest =>
    if name ∈ files then
      .uploadAttachment name "Invoice" invId :: attachToInvoice files invId rest
    else attachToInvoice files invId rest

/-- Invoice construction inside `createInvoiceFromBillableExpenses`
(src/lib/qbo-service.ts lines 283-319): `PONumber` set when its trim is
truthy (untrimmed value stored), the "Point of Contact" custom field set
when its trim is truthy, `CurrencyRef` set when the currency argument is
truthy. -/
def buildInvoice (customerId invoiceDate poNumber pointOfContact currency : String) :
    Invoice :=
  ⟨customerId, invoiceDate,
   if (jsTrim poNumber) ≠ "" then some poNumber else none,
   if (jsTrim pointOfContact) ≠ "" then some pointOfContact else none,
   if currency ≠ "" then some currency else none⟩

/-- Group result for a caught external fault (lines 796-799). -/
def failRes (f : Fault) : GroupRes :=
  ⟨.error, none, none, none, none, none, none, some (extractErrorMessage f),
   none, none⟩

/-- Group result for a validation failure (lines 561-567). -/
def valErrRes (msg : String) : GroupRes :=
  ⟨.error, none, none, none, none, none, none, some msg, none, none⟩

/-- Group result for a `needs_review` outcome (lines 590-594, 602-607). -/
def reviewRes (msg : String) : GroupRes :=
  ⟨.needs_review, none, none, none, none, none, none, some msg, none, none⟩

/-- Group result for an already-processed idempotency key (lines 572-578). -/
def alreadyProcessedRes (billNumber : String) : GroupRes :=
  ⟨.skipped, none, none, none, none, none, none, none,
   some ("Bill " ++ billNumber ++ " already processed"),
   some ("bill_" ++ billNumber)⟩

/-- Steps 6-8 of `processBillGroup` (lines 691-777): attach files to the
bill, create the companion invoice from the first row's data, optionally
attach the same files to the invoice, record the idempotency key and build
the success result. -/
def afterBill (env : Env) (settings : ProcessingSettings) (firstRow : CSVRow)
    (billNumber custId vendId : String) (subIds : List String) (nLines : Nat)
    (files : List String) (allNames : List String) (billId : String)
    (keys : List String) : GroupRes × List String × List Call :=
  let att := attachToBill env files billId allNames
  let invoiceDateIso :=
    (env.parseDate firstRow.InvoiceDate settings.strictDateParsing).getD ""
  let inv := buildInvoice (subIds.headD "") invoiceDateIso firstRow.PONumber
    firstRow.PointOfContact (invoiceCurrencyArg settings firstRow)
  match env.createInvoice inv with
  | .error f => (failRes f, keys, att.2 ++ [.createInvoice inv])
  | .ok invId =>
    let c2 := if settings.alsoAttachToInvoice then attachToInvoice files invId allNames
      else []
    (⟨.success, some custId, some (subIds.headD ""), some vendId, some billId,
      some invId, some att.1, none,
      some ("Bill " ++ billNumber ++ " created with " ++ toString nLines ++
        " line items"),
      some ("bill_" ++ billNumber)⟩,
     keys ++ ["bill_" ++ billNumber],
     att.2 ++ [.createInvoice inv] ++ c2)

/-- `CSVProcessor.processBillGroup` (src/lib/processor.ts lines 546-801):
validate every row, check the idempotency key, resolve entities, build and
create the bill, attach files, create the invoice, and mark the key
processed on success. Any external fault is caught once at the group
boundary and converted to an error result. The empty-rows case is
unreachable from `processAll`; it stands for the TypeError the catch-all
would turn into an error result. -/
def processBillGroup (env : Env) (settings : ProcessingSettings)
    (billNumber : String) (rows : List CSVRow) (indices : List Nat)
    (files : List String) (keys : List String) :
    GroupRes × List String × List Call :=
  match rows with
  | [] => (valErrRes "Unknown error occurred", keys, [])
  | firstRow :: _ =>
    match groupValidate env settings rows indices with
    | some msg => (valErrRes msg, keys, [])
    | none =>
      if ("bill_" ++ billNumber) ∈ keys then
        (alreadyProcessedRes billNumber, keys, [])
      else
        let rc := resolveCustomerStep env settings firstRow.CustomerName
        match rc.1 with
        | .failed f => (failRes f, keys, rc.2)
        | .needsReview m => (reviewRes m, keys, rc.2)
        | .ok custId =>
          let rv := resolveVendorStep env settings firstRow.VendorName
          match rv.1 with
          | .failed f => (failRes f, keys, rc.2 ++ rv.2)
          | .needsReview m => (reviewRes m, keys, rc.2 ++ rv.2)
          | .ok vendId =>
            let rd := resolveDepartmentStep env firstRow
            match rd.1 with
            | .error f => (failRes f, keys, rc.2 ++ rv.2 ++ rd.2)
            | .ok deptId =>
              match env.getExpenseAccount with
              | .error f =>
                (failRes f, keys, rc.2 ++ rv.2 ++ rd.2 ++ [.getExpenseAccount])
              | .ok acctId =>
                let bl := buildLines env custId acctId rows
                match bl.1 with
                | .error f =>
                  (failRes f, keys,
                   rc.2 ++ rv.2 ++ rd.2 ++ [.getExpenseAccount] ++ bl.2)
                | .ok lr =>
                  let billDateIso :=
                    (env.parseDate firstRow.BillDate settings.strictDateParsing).getD ""
                  let bill : Bill :=
                    ⟨billNumber, vendId, billDateIso, lr.1, deptId,
                     billCurrencyRef firstRow⟩
                  match env.createBill bill with
                  | .error f =>
                    (failRes f, keys,
                     rc.2 ++ rv.2 ++ rd.2 ++ [.getExpenseAccount] ++ bl.2 ++
                       [.createBill bill])
                  | .ok billId =>
                    let allNames := collectFileNames rows
                    let fin := afterBill env settings firstRow billNumber custId
                      vendId lr.2 lr.1.length files allNames billId keys
                    (fin.1, fin.2.1,
                     rc.2 ++ rv.2 ++ rd.2 ++ [.getExpenseAccount] ++ bl.2 ++
                       [.createBill bill] ++ fin.2.2)

/-- Result pushed by `processAll` for an empty row (lines 494-498). -/
def emptyRowRes : GroupRes :=
  ⟨.skipped, none, none, none, none, none, none, none, some "Empty row", none⟩

/-- Result pushed by `processAll` for a non-empty row with a blank trimmed
bill number (lines 503-509). -/
def missingBillRes : GroupRes :=
  ⟨.error, none, none, none, none, none, none, some "BillNumber is required",
   none, none⟩

/-- Group-processing loop of `processAll` (lines 520-541): process each
group in first-seen order, thread the processed-key set, and replicate the
group result to every row index of the group. -/
def runGroups (env : Env) (settings : ProcessingSettings) (files : List String) :
    List Group → List String → List ProcessingResult × List String × List Call
  | [], keys => ([], keys, [])
  | g :: gs, keys =>
    let r := processBillGroup env settings g.key g.rows g.idxs files keys
    let rest := runGroups env settings files gs r.2.1
    (g.idxs.map (fun i => ⟨i, r.1⟩) ++ rest.1, rest.2.1, r.2.2 ++ rest.2.2)

/-- `CSVProcessor.processAll` (src/lib/processor.ts lines 479-544), also
returning the final processed-key set and the full external-call trace. -/
def processAll (env : Env) (settings : ProcessingSettings) (rows : List CSVRow)
    (files : List String) (keys : List String) :
    List ProcessingResult × List String × List Call :=
  let pre := preResults (fun i => [⟨i, emptyRowRes⟩]) (fun i => [⟨i, missingBillRes⟩])
    0 rows
  let rest := runGroups env settings files (buildGroups rows) keys
  (pre ++ rest.1, rest.2.1, rest.2.2)

/-- Per-line narration of `dryRun` (lines 200-209), one line per row,
1-based numbering. -/
def lineActions (settings : ProcessingSettings) : Nat → List CSVRow → List String
  | _, [] => []
  | i, row :: rest =>
    ("  Line " ++ toString (i + 1) ++ ": Project \"" ++ row.ProjectName ++
      "\" - " ++ row.BillLineAmount ++ " " ++
      (if row.Currency ≠ "" then row.Currency else settings.defaultCurrency) ++
      " - " ++ row.BillLineDescription)
    :: lineActions settings (i + 1) rest

/-- Narrated action list of `dryRun` for one valid group (lines 188-236). -/
def dryRunActions (settings : ProcessingSettings) (key : String)
    (rows : List CSVRow) (firstRow : CSVRow) : List String :=
  let allAttachments := collectFileNames rows
  ["Create Bill #" ++ key ++ " with " ++ toString rows.length ++ " line item(s)",
   "Find or create Customer: \"" ++ firstRow.CustomerName ++ "\"",
   "Find or create Vendor: \"" ++ firstRow.VendorName ++ "\""] ++
  (if (jsTrim firstRow.Location) ≠ "" then
    ["Find Department/Location: \"" ++ firstRow.Location ++ "\""]
   else []) ++
  lineActions settings 0 rows ++
  (if allAttachments.length > 0 then
    ["Attach " ++ toString allAttachments.length ++ " file(s) to Bill: " ++
      jsJoin ", " allAttachments] ++
    (if settings.alsoAttachToInvoice then ["Also attach files to Invoice"] else [])
   else []) ++
  ["Create Invoice from billable expenses"] ++
  (if (jsTrim firstRow.PONumber) ≠ "" then
    ["Set PO Number: " ++ firstRow.PONumber] else []) ++
  (if (jsTrim firstRow.PointOfContact) ≠ "" then
    ["Set Point of Contact: \"" ++ firstRow.PointOfContact ++ "\""] else [])

/-- Dry-run processing of one group (lines 157-247): aggregated errors
replicated to every row when any row fails validation, otherwise the
narrated actions replicated to every row. -/
def dryRunGroup (env : Env) (settings : ProcessingSettings) (g : Group) :
    List DryRunResult :=
  match g.rows with
  | [] => []
  | firstRow :: _ =>
    let allErrors := collectGroupErrors env settings g.rows g.idxs
    if allErrors.isEmpty then
      (g.idxs.map (fun i => ⟨i, dryRunActions settings g.key g.rows firstRow, [], []⟩))
    else
      (g.idxs.map (fun i => ⟨i, [], [], allErrors⟩))

/-- `CSVProcessor.dryRun` (src/lib/processor.ts lines 124-250): same
grouping loop as `processAll` (empty rows produce no result, rows without a
bill number produce an error result), then per-group narration. -/
def dryRun (env : Env) (settings : ProcessingSettings) (rows : List CSVRow) :
    List DryRunResult :=
  let pre := preResults (fun _ => [])
    (fun i => [⟨i, [], [], ["BillNumber is required"]⟩]) 0 rows
  pre ++ ((buildGroups rows).map (dryRunGroup env settings)).flatten

/-- A benign concrete environment: every lookup misses, every create
succeeds with a name-derived id, date parsing echoes non-blank strings and
amounts parse whenever non-blank. Used for concrete evaluations. -/
def okEnv : Env :=
  ⟨fun _ => .ok none,
   fun n _ => .ok ("C_" ++ n),
   fun _ => .ok none,
   fun n => .ok ("V_" ++ n),
   fun _ => .ok none,
   fun _ => .ok none,
   .ok "ACCT1",
   fun _ => .ok "BILL1",
   fun n _ _ => .ok ("ATT_" ++ n),
   fun _ => .ok "INV1",
   fun s _ => if s = "" then none else some s,
   fun s => if s = "" then none else some 100⟩

/-- Concrete settings used for concrete evaluations. -/
def settings0 : ProcessingSettings :=
  ⟨true, false, true, "USD", false, "sandbox"⟩

/-- An all-blank row. -/
def blankRow : CSVRow :=
  ⟨"", "", "", "", "", "", "", "", "", "", "", "", "", ""⟩

/-- A fully populated valid row for bill "B1" with no explicit currency. -/
def fullRow : CSVRow :=
  ⟨"B1", "", "Proj", "Acme", "Bob", "2024-01-01", "desc", "100", "",
   "2024-01-02", "", "", "", ""⟩

example : isEmptyRow blankRow = true := by decide
example : isEmptyRow fullRow = false := by decide

/-- A non-empty row whose only content is a bill number; it forms a group
and fails validation. -/
def badRow : CSVRow :=
  ⟨"B1", "", "", "", "", "", "", "", "", "", "", "", "", ""⟩

/-- A row whose only non-blank fields are `Location`, `Currency` and
`AttachmentFiles` (the three fields `isEmptyRow` ignores). -/
def onlyIgnoredRow : CSVRow :=
  ⟨"", "Office", "", "", "", "", "", "", "usd", "", "", "", "a.pdf", ""⟩

/-- All indices carried by a group list, in order. -/
def grpIdxs (gs : List Group) : List Nat :=
  (gs.map Group.idxs).flatten

lemma mem_errIf {e e' : ValidationError} {b : Bool} :
    e ∈ errIf b e' ↔ (b = true ∧ e = e') := by
  unfold errIf
  split <;> simp_all

lemma insertRow_idxs_perm (k : String) (r : CSVRow) (i : Nat) :
    ∀ gs : List Group, (grpIdxs (insertRow k r i gs)).Perm (grpIdxs gs ++ [i])
  | [] => by simp [insertRow, grpIdxs]
  | g :: gs => by
    unfold insertRow
    by_cases hk : g.key = k
    · simp only [hk, if_true, grpIdxs, List.map_cons, List.flatten_cons]
      have h1 : ([i] ++ (gs.map Group.idxs).flatten).Perm
          ((gs.map Group.idxs).flatten ++ [i]) := List.perm_append_comm
      simpa [List.append_assoc] using h1.append_left g.idxs
    · simp only [hk, if_false, grpIdxs, List.map_cons, List.flatten_cons]
      have h1 := insertRow_idxs_perm k r i gs
      simpa [List.append_assoc] using (h1.append_left g.idxs)

lemma mem_grpIdxs_insertRow {j : Nat} {k : String} {r : CSVRow} {i : Nat}
    {gs : List Group} (h : j ∈ grpIdxs (insertRow k r i gs)) :
    j ∈ grpIdxs gs ∨ j = i := by
  have := (insertRow_idxs_perm k r i gs).mem_iff.mp h
  simpa using this

/-- The row indices produced by the shared grouping loop, taken across the
pushed pre-results and the groups, are a permutation of the processed index
range. Stated for the handlers of `processAll`. -/
lemma split_idxs_perm :
    ∀ (rows : List CSVRow) (i : Nat) (gs : List Group),
    ((preResults (fun j => [(⟨j, emptyRowRes⟩ : ProcessingResult)])
        (fun j => [⟨j, missingBillRes⟩]) i rows).map ProcessingResult.rowIndex ++
      grpIdxs (gatherGroups i gs rows)).Perm
      (grpIdxs gs ++ List.range' i rows.length)
  | [], i, gs => by simp [preResults, gatherGroups]
  | r :: rs, i, gs => by
    have hr : List.range' i (r :: rs).length = i :: List.range' (i + 1) rs.length := rfl
    rw [hr]
    by_cases h1 : isEmptyRow r
    · have ih := split_idxs_perm rs (i + 1) gs
      simp only [preResults, gatherGroups, h1, if_true, List.map_cons, List.cons_append,
        List.singleton_append]
      exact (ih.cons i).trans List.perm_middle.symm
    · by_cases h2 : jsTrim r.BillNumber = ""
      · have ih := split_idxs_perm rs (i + 1) gs
        simp only [preResults, gatherGroups, h1, h2, if_true, if_false, List.map_cons,
          List.cons_append, List.singleton_append]
        exact (ih.cons i).trans List.perm_middle.symm
      · have ih := split_idxs_perm rs (i + 1) (insertRow (jsTrim r.BillNumber) r i gs)
        simp only [preResults, gatherGroups, h1, h2, if_false]
        refine ih.trans ?_
        have h3 := (insertRow_idxs_perm (jsTrim r.BillNumber) r i gs).append_right
          (List.range' (i + 1) rs.length)
        refine h3.trans ?_
        simp [List.append_assoc]

lemma runGroups_map_rowIndex (env : Env) (settings : ProcessingSettings)
    (files : List String) :
    ∀ (gs : List Group) (keys : List String),
    ((runGroups env settings files gs keys).1.map ProcessingResult.rowIndex) = grpIdxs gs
  | [], _ => rfl
  | g :: gs, keys => by
    simp only [runGroups, grpIdxs, List.map_cons, List.flatten_cons, List.map_append,
      List.map_map]
    rw [runGroups_map_rowIndex env settings files gs _]
    have : (ProcessingResult.rowIndex ∘ fun i =>
        (⟨i, (processBillGroup env settings g.key g.rows g.idxs files keys).1⟩ :
          ProcessingResult)) = id := rfl
    simp [this, grpIdxs]

/-- C1 (amended): `processAll` returns exactly one `ProcessingResult` per
original row index — the multiset of returned `rowIndex` values is exactly
`0, …, rows.length - 1` — but the sequence is not globally ordered by
`rowIndex`: results of empty rows and of rows without a bill number come
first in input order, followed by the group fan-out results in first-seen
group order. -/
theorem processAll_results_indices_perm (env : Env) (settings : ProcessingSettings)
    (rows : List CSVRow) (files : List String) (keys : List String) :
    (((processAll env settings rows files keys).1.map ProcessingResult.rowIndex)).Perm
      (List.range rows.length) := by
  unfold processAll
  simp only [List.map_append]
  rw [runGroups_map_rowIndex, List.range_eq_range']
  simpa using split_idxs_perm rows 0 []

/-- C1 counterexample: for the two-row input `[badRow, blankRow]` the
execute pass returns the empty row's result first — the returned sequence
has row indices `[1, 0]`, which is not the original index order. -/
theorem processAll_not_sorted_counterexample :
    ((processAll okEnv settings0 [badRow, blankRow] [] []).1.map
      ProcessingResult.rowIndex) = [1, 0] ∧
    ¬ ((processAll okEnv settings0 [badRow, blankRow] [] []).1.map
      ProcessingResult.rowIndex) = List.range 2 := by
  constructor
  · decide
  · decide

/-- A non-empty row (bill number set) with lowercase currency "usd". -/
def usdLowerRow : CSVRow :=
  ⟨"B1", "", "", "", "", "", "", "", "usd", "", "", "", "", ""⟩

/-- The `CurrencyRef` values of all bill documents created in a trace. -/
def billCurrencies (tr : List Call) : List (Option String) :=
  tr.filterMap fun c =>
    match c with
    | .createBill b => some b.currencyRef
    | _ => none

/-- The `CurrencyRef` values of all invoice documents created in a trace. -/
def invoiceCurrencies (tr : List Call) : List (Option String) :=
  tr.filterMap fun c =>
    match c with
    | .createInvoice i => some i.currencyRef
    | _ => none

/-- All bill documents created in a trace. -/
def billDocs (tr : List Call) : List Bill :=
  tr.filterMap fun c =>
    match c with
    | .createBill b => some b
    | _ => none

/-- All invoice documents created in a trace. -/
def invoiceDocs (tr : List Call) : List Invoice :=
  tr.filterMap fun c =>
    match c with
    | .createInvoice i => some i
    | _ => none

lemma billDocs_append (a b : List Call) :
    billDocs (a ++ b) = billDocs a ++ billDocs b :=
  List.filterMap_append a b _

lemma invoiceDocs_append (a b : List Call) :
    invoiceDocs (a ++ b) = invoiceDocs a ++ invoiceDocs b :=
  List.filterMap_append a b _

lemma resolveCustomerStep_docs (env : Env) (s : ProcessingSettings)
    (name : String) :
    billDocs (resolveCustomerStep env s name).2 = [] ∧
    invoiceDocs (resolveCustomerStep env s name).2 = [] := by
  unfold resolveCustomerStep
  cases env.findCustomerByName name with
  | error f => exact ⟨rfl, rfl⟩
  | ok o =>
    cases o with
    | some id => exact ⟨rfl, rfl⟩
    | none =>
      by_cases ha : s.autoCreate
      · simp only [ha, if_true]
        cases env.createCustomer name none <;> exact ⟨rfl, rfl⟩
      · simp only [ha, Bool.false_eq_true, if_false]
        exact ⟨rfl, rfl⟩

lemma resolveVendorStep_docs (env : Env) (s : ProcessingSettings)
    (name : String) :
    billDocs (resolveVendorStep env s name).2 = [] ∧
    invoiceDocs (resolveVendorStep env s name).2 = [] := by
  unfold resolveVendorStep
  cases env.findVendorByName name with
  | error f => exact ⟨rfl, rfl⟩
  | ok o =>
    cases o with
    | some id => exact ⟨rfl, rfl⟩
    | none =>
      by_cases ha : s.autoCreate
      · simp only [ha, if_true]
        cases env.createVendor name <;> exact ⟨rfl, rfl⟩
      · simp only [ha, Bool.false_eq_true, if_false]
        exact ⟨rfl, rfl⟩

lemma resolveDepartmentStep_docs (env : Env) (firstRow : CSVRow) :
    billDocs (resolveDepartmentStep env firstRow).2 = [] ∧
    invoiceDocs (resolveDepartmentStep env firstRow).2 = [] := by
  unfold resolveDepartmentStep
  by_cases hl : jsTrim firstRow.Location ≠ ""
  · rw [if_pos hl]
    cases env.findDepartmentByName (jsTrim firstRow.Location) <;> exact ⟨rfl, rfl⟩
  · rw [if_neg hl]
    exact ⟨rfl, rfl⟩

lemma resolveSubCustomer_docs (env : Env) (custId name : String) :
    billDocs (resolveSubCustomer env custId name).2 = [] ∧
    invoiceDocs (resolveSubCustomer env custId name).2 = [] := by
  unfold resolveSubCustomer
  cases env.findCustomerByName name with
  | error f => exact ⟨rfl, rfl⟩
  | ok o =>
    cases o with
    | some id => exact ⟨rfl, rfl⟩
    | none => cases env.createCustomer name (some custId) <;> exact ⟨rfl, rfl⟩

lemma resolveClass_docs (env : Env) (category : String) :
    billDocs (resolveClass env category).2 = [] ∧
    invoiceDocs (resolveClass env category).2 = [] := by
  unfold resolveClass
  by_cases hc : jsTrim category ≠ ""
  · rw [if_pos hc]
    cases env.findClassByName (jsTrim category) <;> exact ⟨rfl, rfl⟩
  · rw [if_neg hc]
    exact ⟨rfl, rfl⟩

lemma buildLines_docs (env : Env) (custId acctId : String) :
    ∀ rows : List CSVRow,
    billDocs (buildLines env custId acctId rows).2 = [] ∧
    invoiceDocs (buildLines env custId acctId rows).2 = []
  | [] => ⟨rfl, rfl⟩
  | row :: rest => by
    unfold buildLines
    have hs := resolveSubCustomer_docs env custId row.ProjectName
    have hc := resolveClass_docs env row.Category
    have hr := buildLines_docs env custId acctId rest
    cases h1 : (resolveSubCustomer env custId row.ProjectName).1 with
    | error f => simpa [h1] using hs
    | ok subId =>
      cases h2 : (resolveClass env row.Category).1 with
      | error f =>
        simp [h1, h2, billDocs_append, invoiceDocs_append, hs.1, hs.2,
          hc.1, hc.2]
      | ok classId =>
        cases h3 : (buildLines env custId acctId rest).1 with
        | error f =>
          simp [h1, h2, h3, billDocs_append, invoiceDocs_append, hs.1, hs.2,
            hc.1, hc.2, hr.1, hr.2]
        | ok lr =>
          simp [h1, h2, h3, billDocs_append, invoiceDocs_append, hs.1, hs.2,
            hc.1, hc.2, hr.1, hr.2]

lemma attachToBill_docs (env : Env) (files : List String) (billId : String) :
    ∀ names : List String,
    billDocs (attachToBill env files billId names).2 = [] ∧
    invoiceDocs (attachToBill env files billId names).2 = []
  | [] => ⟨rfl, rfl⟩
  | n :: rest => by
    unfold attachToBill
    have ih := attachToBill_docs env files billId rest
    by_cases hf : n ∈ files
    · simp only [hf, if_true]
      cases env.uploadAttachment n "Bill" billId <;> exact ⟨ih.1, ih.2⟩
    · simp only [hf, if_false]
      exact ih

lemma attachToInvoice_docs (files : List String) (invId : String) :
    ∀ names : List String,
    billDocs (attachToInvoice files invId names) = [] ∧
    invoiceDocs (attachToInvoice files invId names) = []
  | [] => ⟨rfl, rfl⟩
  | n :: rest => by
    unfold attachToInvoice
    have ih := attachToInvoice_docs files invId rest
    by_cases hf : n ∈ files
    · simp only [hf, if_true]
      simpa [billDocs, invoiceDocs, List.filterMap_cons] using ih
    · simp only [hf, if_false]
      exact ih

lemma billDocs_createInvoice_singleton (x : Invoice) :
    billDocs [Call.createInvoice x] = [] := rfl

lemma invoiceDocs_createInvoice_singleton (x : Invoice) :
    invoiceDocs [Call.createInvoice x] = [x] := rfl

lemma afterBill_docs (env : Env) (s : ProcessingSettings) (firstRow : CSVRow)
    (bn custId vendId : String) (subIds : List String) (nl : Nat)
    (files names : List String) (billId : String) (keys : List String) :
    ∀ out, out = afterBill env s firstRow bn custId vendId subIds nl files
      names billId keys →
    billDocs out.2.2 = [] ∧
    ∀ inv ∈ invoiceDocs out.2.2,
      inv.currencyRef =
        (if invoiceCurrencyArg s firstRow ≠ "" then
          some (invoiceCurrencyArg s firstRow) else none) := by
  intro out hout
  have hb := attachToBill_docs env files billId names
  unfold afterBill at hout
  dsimp only at hout
  split at hout
  · subst hout
    refine ⟨?_, ?_⟩
    · rw [billDocs_append, hb.1, billDocs_createInvoice_singleton]
      rfl
    · intro inv hinv
      rw [invoiceDocs_append, hb.2, List.nil_append,
        invoiceDocs_createInvoice_singleton] at hinv
      have := List.mem_singleton.mp hinv
      subst this
      simp [buildInvoice]
  · subst hout
    refine ⟨?_, ?_⟩
    · rw [billDocs_append, billDocs_append, hb.1,
        billDocs_createInvoice_singleton]
      by_cases ha : s.alsoAttachToInvoice
      · rw [if_pos ha, (attachToInvoice_docs files _ names).1]
        rfl
      · rw [if_neg ha]
        rfl
    · intro inv hinv
      rw [invoiceDocs_append, invoiceDocs_append, hb.2,
        invoiceDocs_createInvoice_singleton, List.nil_append] at hinv
      by_cases ha : s.alsoAttachToInvoice
      · rw [if_pos ha] at hinv
        rcases List.mem_append.mp hinv with h0 | h0
        · have := List.mem_singleton.mp h0
          subst this
          simp [buildInvoice]
        · rw [(attachToInvoice_docs files _ names).2] at h0
          exact absurd h0 (by simp)
      · rw [if_neg ha] at hinv
        have := List.mem_singleton.mp hinv
        subst this
        simp [buildInvoice]

lemma billDocs_acct_singleton : billDocs [Call.getExpenseAccount] = [] := rfl

lemma invoiceDocs_acct_singleton : invoiceDocs [Call.getExpenseAccount] = [] := rfl

lemma billDocs_createBill_singleton (b : Bill) :
    billDocs [Call.createBill b] = [b] := rfl

lemma invoiceDocs_createBill_singleton (b : Bill) :
    invoiceDocs [Call.createBill b] = [] := rfl

lemma processBillGroup_doc_currencies (env : Env) (s : ProcessingSettings)
    (bn : String) (r : CSVRow) (rs : List CSVRow) (idxs : List Nat)
    (files keys : List String) :
    (∀ b ∈ billDocs (processBillGroup env s bn (r :: rs) idxs files keys).2.2,
      b.currencyRef = billCurrencyRef r) ∧
    (∀ inv ∈ invoiceDocs
        (processBillGroup env s bn (r :: rs) idxs files keys).2.2,
      inv.currencyRef =
        (if invoiceCurrencyArg s r ≠ "" then
          some (invoiceCurrencyArg s r) else none)) := by
  unfold processBillGroup
  cases hgv : groupValidate env s (r :: rs) idxs with
  | some msg =>
    exact ⟨fun b hb => absurd hb (List.not_mem_nil b),
      fun i hi => absurd hi (List.not_mem_nil i)⟩
  | none =>
    simp only [hgv]
    by_cases hk : ("bill_" ++ bn) ∈ keys
    · simp only [if_pos hk]
      exact ⟨fun b hb => absurd hb (List.not_mem_nil b),
        fun i hi => absurd hi (List.not_mem_nil i)⟩
    · simp only [if_neg hk]
      have h1 := resolveCustomerStep_docs env s r.CustomerName
      cases (resolveCustomerStep env s r.CustomerName).1 with
      | failed f =>
        constructor <;> intro x hx <;>
          simp only [h1.1, h1.2] at hx <;>
          exact absurd hx (List.not_mem_nil x)
      | needsReview m =>
        constructor <;> intro x hx <;>
          simp only [h1.1, h1.2] at hx <;>
          exact absurd hx (List.not_mem_nil x)
      | ok custId =>
        have h2 := resolveVendorStep_docs env s r.VendorName
        cases (resolveVendorStep env s r.VendorName).1 with
        | failed f =>
          constructor <;> intro x hx <;>
            simp only [billDocs_append, invoiceDocs_append, h1.1, h1.2, h2.1,
              h2.2, List.nil_append] at hx <;>
            exact absurd hx (List.not_mem_nil x)
        | needsReview m =>
          constructor <;> intro x hx <;>
            simp only [billDocs_append, invoiceDocs_append, h1.1, h1.2, h2.1,
              h2.2, List.nil_append] at hx <;>
            exact absurd hx (List.not_mem_nil x)
        | ok vendId =>
          have h3 := resolveDepartmentStep_docs env r
          cases (resolveDepartmentStep env r).1 with
          | error f =>
            constructor <;> intro x hx <;>
              simp only [billDocs_append, invoiceDocs_append, h1.1, h1.2, h2.1,
                h2.2, h3.1, h3.2, List.nil_append] at hx <;>
              exact absurd hx (List.not_mem_nil x)
          | ok deptId =>
            cases env.getExpenseAccount with
            | error f =>
              constructor <;> intro x hx <;>
                simp only [billDocs_append, invoiceDocs_append, h1.1, h1.2, h2.1,
                  h2.2, h3.1, h3.2, billDocs_acct_singleton,
                  invoiceDocs_acct_singleton, List.nil_append,
                  List.append_nil] at hx <;>
                exact absurd hx (List.not_mem_nil x)
            | ok acctId =>
              have h4 := buildLines_docs env custId acctId (r :: rs)
              cases hbl : (buildLines env custId acctId (r :: rs)).1 with
              | error f =>
                constructor <;> intro x hx <;>
                  simp only [hbl] at hx <;>
                  simp only [billDocs_append, invoiceDocs_append, h1.1, h1.2,
                    h2.1, h2.2, h3.1, h3.2, h4.1, h4.2, billDocs_acct_singleton,
                    invoiceDocs_acct_singleton, List.nil_append,
                    List.append_nil] at hx <;>
                  exact absurd hx (List.not_mem_nil x)
              | ok lr =>
                cases hcb : env.createBill ⟨bn, vendId,
                    (env.parseDate r.BillDate s.strictDateParsing).getD "",
                    lr.1, deptId, billCurrencyRef r⟩ with
                | error f =>
                  constructor <;> intro x hx
                  · simp only [hbl, hcb] at hx
                    simp only [billDocs_append, h1.1, h2.1, h3.1, h4.1,
                      billDocs_acct_singleton, billDocs_createBill_singleton,
                      List.nil_append, List.append_nil] at hx
                    have := List.mem_singleton.mp hx
                    subst this
                    rfl
                  · simp only [hbl, hcb] at hx
                    simp only [invoiceDocs_append, h1.2, h2.2, h3.2, h4.2,
                      invoiceDocs_acct_singleton,
                      invoiceDocs_createBill_singleton, List.nil_append,
                      List.append_nil] at hx
                    exact absurd hx (List.not_mem_nil x)
                | ok billId =>
                  have h5 := afterBill_docs env s r bn custId vendId lr.2
                    lr.1.length files (collectFileNames (r :: rs)) billId keys
                    _ rfl
                  constructor <;> intro x hx
                  · simp only [hbl, hcb] at hx
                    simp only [billDocs_append, h1.1, h2.1, h3.1, h4.1, h5.1,
                      billDocs_acct_singleton, billDocs_createBill_singleton,
                      List.nil_append, List.append_nil] at hx
                    have := List.mem_singleton.mp hx
                    subst this
                    rfl
                  · simp only [hbl, hcb] at hx
                    simp only [invoiceDocs_append, h1.2, h2.2, h3.2, h4.2,
                      invoiceDocs_acct_singleton,
                      invoiceDocs_createBill_singleton, List.nil_append,
                      List.append_nil] at hx
                    exact h5.2 x hx

/-- C2 counterexample: a successful one-row group whose row carries no
explicit currency, under `defaultCurrency = "USD"`: the created Bill
carries no currency at all while the companion Invoice carries `"USD"` —
the two documents are not resolved by the same rule. -/
theorem currency_fallback_counterexample :
    fullRow.Currency = "" ∧ settings0.defaultCurrency = "USD" ∧
    ((processAll okEnv settings0 [fullRow] [] []).1.map
      (fun p => p.res.status)) = [.success] ∧
    billCurrencies (processAll okEnv settings0 [fullRow] [] []).2.2 = [none] ∧
    invoiceCurrencies (processAll okEnv settings0 [fullRow] [] []).2.2 =
      [some "USD"] := by
  refine ⟨rfl, rfl, by decide, by decide, by decide⟩

/-- C2 (amended): the Bill's `CurrencyRef` is the first row's raw currency
when truthy and is absent otherwise (it never falls back to
`defaultCurrency`), while the Invoice's currency argument is the first
row's currency when truthy and `defaultCurrency` otherwise; the invoice
document carries that argument whenever it is non-blank. Every Bill
document created by `processBillGroup` carries exactly the former and
every Invoice document exactly the latter. The two documents therefore
agree only when the row currency is present: when it is absent the Invoice
carries the default but the Bill carries no currency. -/
theorem currency_resolution_amended :
    (∀ (row : CSVRow) (settings : ProcessingSettings), row.Currency = "" →
      billCurrencyRef row = none ∧
      invoiceCurrencyArg settings row = settings.defaultCurrency) ∧
    (∀ (row : CSVRow) (settings : ProcessingSettings), row.Currency ≠ "" →
      billCurrencyRef row = some row.Currency ∧
      invoiceCurrencyArg settings row = row.Currency) ∧
    (∀ cid d po poc cur, (buildInvoice cid d po poc cur).currencyRef =
      if cur ≠ "" then some cur else none) ∧
    (∀ (env : Env) (s : ProcessingSettings) (bn : String) (r : CSVRow)
      (rs : List CSVRow) (idxs : List Nat) (files keys : List String),
      ∀ b ∈ billDocs (processBillGroup env s bn (r :: rs) idxs files keys).2.2,
        b.currencyRef = billCurrencyRef r) ∧
    (∀ (env : Env) (s : ProcessingSettings) (bn : String) (r : CSVRow)
      (rs : List CSVRow) (idxs : List Nat) (files keys : List String),
      ∀ inv ∈ invoiceDocs
          (processBillGroup env s bn (r :: rs) idxs files keys).2.2,
        inv.currencyRef =
          (if invoiceCurrencyArg s r ≠ "" then
            some (invoiceCurrencyArg s r) else none)) := by
  refine ⟨?_, ?_, ?_, ?_, ?_⟩
  · intro row settings h
    simp [billCurrencyRef, invoiceCurrencyArg, h]
  · intro row settings h
    simp [billCurrencyRef, invoiceCurrencyArg, h]
  · intro cid d po poc cur
    simp [buildInvoice]
  · intro env s bn r rs idxs files keys
    exact (processBillGroup_doc_currencies env s bn r rs idxs files keys).1
  · intro env s bn r rs idxs files keys
    exact (processBillGroup_doc_currencies env s bn r rs idxs files keys).2

/-- C2 amended, witness at a concrete input. -/
theorem currency_resolution_amended_witness :
    billCurrencyRef fullRow = none ∧
    invoiceCurrencyArg settings0 fullRow = "USD" :=
  currency_resolution_amended.1 fullRow settings0 rfl

/-- C3: for every non-empty row, the Currency field error is emitted exactly
when the effective currency — the trimmed row currency if non-blank, else
`defaultCurrency` — fails the `^[A-Z]{3}$` pattern; "USD" and "EUR" pass
the pattern while "usd", "US", "USDD" and "" fail it. -/
theorem currency_validation_rule :
    (∀ (env : Env) (settings : ProcessingSettings) (row : CSVRow) (i : Nat),
      isEmptyRow row = false →
      (currencyErr i ∈ validateRow env settings row i ↔
        currencyPattern (effectiveCurrency settings row) = false)) ∧
    currencyPattern "USD" = true ∧ currencyPattern "EUR" = true ∧
    currencyPattern "usd" = false ∧ currencyPattern "US" = false ∧
    currencyPattern "USDD" = false ∧ currencyPattern "" = false := by
  refine ⟨?_, by decide, by decide, by decide, by decide, by decide, by decide⟩
  intro env settings row i h
  unfold validateRow
  simp [h, mem_errIf, currencyErr, ValidationError.mk.injEq, Bool.not_eq_true']

/-- C3 witness: a concrete non-empty row with lowercase currency "usd" and
default "USD" — the error is reported exactly when the pattern fails. -/
theorem currency_validation_rule_witness :
    currencyErr 0 ∈ validateRow okEnv settings0 usdLowerRow 0 ↔
      currencyPattern (effectiveCurrency settings0 usdLowerRow) = false :=
  currency_validation_rule.1 okEnv settings0 usdLowerRow 0 (by decide)

/-- C4: a non-rate-limited fault propagates immediately with no backoff;
an operation failing with the rate-limit code "3200" on attempts 0, 1 and 2
is retried after delays of 1000ms, 2000ms and 4000ms in that order, and if
attempt 3 also fails its fault propagates unchanged with no further retry;
a successful first attempt sleeps nothing. -/
theorem retry_backoff_policy {α : Type} (op : Nat → Except Fault α)
    (e0 e1 e2 e3 : Fault) (a : α) :
    (op 0 = .error e0 → e0.code ≠ some "3200" →
      retryWithBackoff op 0 = (.error e0, [])) ∧
    (op 0 = .error e0 → op 1 = .error e1 → op 2 = .error e2 → op 3 = .error e3 →
      e0.code = some "3200" → e1.code = some "3200" → e2.code = some "3200" →
      retryWithBackoff op 0 = (.error e3, [1000, 2000, 4000])) ∧
    (op 0 = .ok a → retryWithBackoff op 0 = (.ok a, [])) := by
  refine ⟨?_, ?_, ?_⟩
  · intro h0 hc
    unfold retryWithBackoff
    simp [h0, hc]
  · intro h0 h1 h2 h3 hc0 hc1 hc2
    unfold retryWithBackoff
    simp only [h0, hc0, maxRetries, baseDelay]
    norm_num
    unfold retryWithBackoff
    simp only [h1, hc1, maxRetries, baseDelay]
    norm_num
    unfold retryWithBackoff
    simp only [h2, hc2, maxRetries, baseDelay]
    norm_num
    unfold retryWithBackoff
    simp [h3, maxRetries]
  · intro h0
    unfold retryWithBackoff
    simp [h0]

/-- C4 witness: a concrete operation that is rate-limited on the first
three attempts and then fails with a distinct fault. -/
theorem retry_backoff_policy_witness :
    retryWithBackoff
      (fun n => (.error ⟨some ("attempt " ++ toString n), some "3200", none, none,
        none, ""⟩ : Except Fault Nat)) 0 =
      (.error ⟨some "attempt 3", some "3200", none, none, none, ""⟩,
        [1000, 2000, 4000]) :=
  (retry_backoff_policy
    (fun n => (.error ⟨some ("attempt " ++ toString n), some "3200", none, none,
      none, ""⟩ : Except Fault Nat))
    ⟨some "attempt 0", some "3200", none, none, none, ""⟩
    ⟨some "attempt 1", some "3200", none, none, none, ""⟩
    ⟨some "attempt 2", some "3200", none, none, none, ""⟩
    ⟨some "attempt 3", some "3200", none, none, none, ""⟩ 0).2.1
    rfl rfl rfl rfl rfl rfl rfl

/-- Rebuild a row with given `Location`, `Currency` and `AttachmentFiles`,
keeping all other fields. -/
def setLCA (row : CSVRow) (l c a : String) : CSVRow :=
  ⟨row.BillNumber, l, row.ProjectName, row.CustomerName, row.VendorName,
   row.BillDate, row.BillLineDescription, row.BillLineAmount, c,
   row.InvoiceDate, row.PONumber, row.PointOfContact, a, row.Category⟩

/-- C10: `isEmptyRow` does not inspect `Location`, `Currency` or
`AttachmentFiles` — it is exactly the conjunction of blank-after-trim
checks of the eleven other fields — every empty row validates to no errors,
and a concrete row whose only non-blank fields are `Location`, `Currency`
and `AttachmentFiles` is processed by the execute pass as one
skipped "Empty row" result with no groups and no external calls. -/
theorem empty_check_ignored_fields :
    (∀ (row : CSVRow) (l c a : String),
      isEmptyRow (setLCA row l c a) = isEmptyRow row) ∧
    (∀ row : CSVRow, isEmptyRow row = true ↔
      (jsTrim row.BillNumber = "" ∧ jsTrim row.ProjectName = "" ∧
       jsTrim row.CustomerName = "" ∧ jsTrim row.VendorName = "" ∧
       jsTrim row.BillDate = "" ∧ jsTrim row.BillLineDescription = "" ∧
       jsTrim row.BillLineAmount = "" ∧ jsTrim row.Category = "" ∧
       jsTrim row.InvoiceDate = "" ∧ jsTrim row.PONumber = "" ∧
       jsTrim row.PointOfContact = "")) ∧
    (∀ (env : Env) (settings : ProcessingSettings) (row : CSVRow) (i : Nat),
      isEmptyRow row = true → validateRow env settings row i = []) ∧
    (isEmptyRow onlyIgnoredRow = true ∧
     processAll okEnv settings0 [onlyIgnoredRow] [] [] =
       ([⟨0, emptyRowRes⟩], [], []) ∧
     buildGroups [onlyIgnoredRow] = []) := by
  refine ⟨?_, ?_, ?_, by decide, by decide, by decide⟩
  · intro row l c a
    rfl
  · intro row
    simp [isEmptyRow]
    tauto
  · intro env settings row i h
    simp [validateRow, h]

/-- C10 witness: the row whose only content sits in the three ignored
fields is empty and validates to no errors. -/
theorem empty_check_ignored_fields_witness :
    validateRow okEnv settings0 onlyIgnoredRow 0 = [] :=
  empty_check_ignored_fields.2.2.1 okEnv settings0 onlyIgnoredRow 0 (by decide)

lemma afterBill_shape (env : Env) (s : ProcessingSettings) (firstRow : CSVRow)
    (bn custId vendId : String) (subIds : List String) (nl : Nat)
    (files names : List String) (billId : String) (keys : List String) :
    ∀ out, out = afterBill env s firstRow bn custId vendId subIds nl files
      names billId keys →
    (out.1.status = .success ∧ out.2.1 = keys ++ ["bill_" ++ bn]) ∨
    (out.1.status = .error ∧ out.2.1 = keys) := by
  intro out hout
  unfold afterBill at hout
  dsimp only at hout
  split at hout
  · right
    subst hout
    exact ⟨rfl, rfl⟩
  · left
    subst hout
    exact ⟨rfl, rfl⟩

lemma processBillGroup_shape (env : Env) (s : ProcessingSettings) (bn : String)
    (rows : List CSVRow) (idxs : List Nat) (files keys : List String) :
    ((processBillGroup env s bn rows idxs files keys).1.status ≠ .success ∧
     (processBillGroup env s bn rows idxs files keys).2.1 = keys) ∨
    ((processBillGroup env s bn rows idxs files keys).1.status = .success ∧
     (processBillGroup env s bn rows idxs files keys).2.1 =
       keys ++ ["bill_" ++ bn] ∧
     groupValidate env s rows idxs = none ∧ rows ≠ []) := by
  cases rows with
  | nil => left; simp [processBillGroup, valErrRes]
  | cons r rs =>
    unfold processBillGroup
    cases hgv : groupValidate env s (r :: rs) idxs with
    | some msg => left; simp [hgv, valErrRes]
    | none =>
      simp only [hgv]
      by_cases hk : ("bill_" ++ bn) ∈ keys
      · left
        simp [hk, alreadyProcessedRes]
      · simp only [if_neg hk]
        cases hrc : (resolveCustomerStep env s r.CustomerName).1 with
        | failed f => left; simp [hrc, failRes]
        | needsReview m => left; simp [hrc, reviewRes]
        | ok custId =>
          simp only [hrc]
          cases hrv : (resolveVendorStep env s r.VendorName).1 with
          | failed f => left; simp [hrv, failRes]
          | needsReview m => left; simp [hrv, reviewRes]
          | ok vendId =>
            simp only [hrv]
            cases hrd : (resolveDepartmentStep env r).1 with
            | error f => left; simp [hrd, failRes]
            | ok deptId =>
              simp only [hrd]
              cases hga : env.getExpenseAccount with
              | error f => left; simp [hga, failRes]
              | ok acctId =>
                simp only [hga]
                cases hbl : (buildLines env custId acctId (r :: rs)).1 with
                | error f => left; simp [hbl, failRes]
                | ok lr =>
                  simp only [hbl]
                  cases hcb : env.createBill ⟨bn, vendId,
                      (env.parseDate r.BillDate s.strictDateParsing).getD "",
                      lr.1, deptId, billCurrencyRef r⟩ with
                  | error f => left; simp [hcb, failRes]
                  | ok billId =>
                    simp only [hcb]
                    rcases afterBill_shape env s r bn custId vendId lr.2
                        lr.1.length files (collectFileNames (r :: rs)) billId keys
                        _ rfl
                      with ⟨h1, h2⟩ | ⟨h1, h2⟩
                    · right
                      exact ⟨h1, h2, by simp [hgv], by simp⟩
                    · left
                      refine ⟨?_, h2⟩
                      simp [h1]

lemma processBillGroup_skip (env : Env) (s : ProcessingSettings) (bn : String)
    (r : CSVRow) (rs : List CSVRow) (idxs : List Nat) (files keys : List String)
    (hv : groupValidate env s (r :: rs) idxs = none)
    (hk : ("bill_" ++ bn) ∈ keys) :
    processBillGroup env s bn (r :: rs) idxs files keys =
      (alreadyProcessedRes bn, keys, []) := by
  unfold processBillGroup
  simp [hv, hk]

/-- C5: the idempotency key `"bill_" + billNumber` is consulted before any
external call: for a group that passes validation, a key already in the
session set yields the skipped already-processed result with an empty call
trace and an unchanged key set; the key is appended exactly on success (a
non-success outcome leaves the key set unchanged); consequently re-running
a group that just succeeded against the same orchestrator skips it with
zero further external calls. -/
theorem idempotency_protocol (env : Env) (s : ProcessingSettings) (bn : String)
    (rows : List CSVRow) (r : CSVRow) (rs : List CSVRow) (idxs : List Nat)
    (files keys : List String) :
    (groupValidate env s (r :: rs) idxs = none → ("bill_" ++ bn) ∈ keys →
      processBillGroup env s bn (r :: rs) idxs files keys =
        (alreadyProcessedRes bn, keys, [])) ∧
    ((processBillGroup env s bn rows idxs files keys).1.status = .success →
      (processBillGroup env s bn rows idxs files keys).2.1 =
        keys ++ ["bill_" ++ bn]) ∧
    ((processBillGroup env s bn rows idxs files keys).1.status ≠ .success →
      (processBillGroup env s bn rows idxs files keys).2.1 = keys) ∧
    ((processBillGroup env s bn rows idxs files keys).1.status = .success →
      processBillGroup env s bn rows idxs files
        ((processBillGroup env s bn rows idxs files keys).2.1) =
        (alreadyProcessedRes bn, keys ++ ["bill_" ++ bn], [])) := by
  refine ⟨fun hv hk => processBillGroup_skip env s bn r rs idxs files keys hv hk,
    ?_, ?_, ?_⟩
  · intro hs
    rcases processBillGroup_shape env s bn rows idxs files keys with
      ⟨h1, _⟩ | ⟨_, h2, _, _⟩
    · exact absurd hs h1
    · exact h2
  · intro hs
    rcases processBillGroup_shape env s bn rows idxs files keys with
      ⟨_, h2⟩ | ⟨h1, _, _, _⟩
    · exact h2
    · exact absurd h1 hs
  · intro hs
    rcases processBillGroup_shape env s bn rows idxs files keys with
      ⟨h1, _⟩ | ⟨_, h2, h3, h4⟩
    · exact absurd hs h1
    · cases rows with
      | nil => exact absurd rfl h4
      | cons r' rs' =>
        rw [h2]
        exact processBillGroup_skip env s bn r' rs' idxs files _ h3
          (List.mem_append_right _ (List.mem_singleton_self _))

/-- C5 witness: a concrete group that succeeds on the first run is skipped
with no external calls on the second run against the same key set. -/
theorem idempotency_protocol_witness :
    processBillGroup okEnv settings0 "B1" [fullRow] [0] []
      ((processBillGroup okEnv settings0 "B1" [fullRow] [0] [] []).2.1) =
      (alreadyProcessedRes "B1", [] ++ ["bill_" ++ "B1"], []) :=
  (idempotency_protocol okEnv settings0 "B1" [fullRow] fullRow [] [0] [] []).2.2.2
    (by decide)

lemma preResults_tail_subset {α : Type} (hE hM : Nat → List α) (r : CSVRow)
    (rs : List CSVRow) (i0 : Nat) :
    ∀ x ∈ preResults hE hM (i0 + 1) rs, x ∈ preResults hE hM i0 (r :: rs) := by
  intro x hx
  unfold preResults
  by_cases h1 : isEmptyRow r
  · simp only [h1, if_true]
    exact List.mem_append_right _ hx
  · simp only [h1, Bool.false_eq_true, if_false]
    by_cases h2 : jsTrim r.BillNumber = ""
    · simp only [h2, if_true]
      exact List.mem_append_right _ hx
    · simp only [h2, if_false]
      exact hx

lemma exec_pre_mem_empty :
    ∀ (rows : List CSVRow) (i0 k : Nat) (h : k < rows.length),
    isEmptyRow (rows.get ⟨k, h⟩) = true →
    (⟨i0 + k, emptyRowRes⟩ : ProcessingResult) ∈
      preResults (fun j => [(⟨j, emptyRowRes⟩ : ProcessingResult)])
        (fun j => [⟨j, missingBillRes⟩]) i0 rows
  | [], _, k, h, _ => absurd h (by simp)
  | r :: rs, i0, 0, _, he => by
    unfold preResults
    simp only [List.get] at he
    simp [he]
  | r :: rs, i0, k + 1, h, he => by
    simp only [List.get] at he
    have hk : k < rs.length := by
      simpa using Nat.lt_of_succ_lt_succ h
    have ih := exec_pre_mem_empty rs (i0 + 1) k hk he
    have heq : i0 + (k + 1) = (i0 + 1) + k := by omega
    rw [heq]
    exact preResults_tail_subset _ _ r rs i0 _ ih

lemma mem_gatherGroups_src :
    ∀ (rows : List CSVRow) (i0 : Nat) (gs : List Group) (j : Nat),
    j ∈ grpIdxs (gatherGroups i0 gs rows) →
    j ∈ grpIdxs gs ∨
      ∃ k, ∃ h : k < rows.length, j = i0 + k ∧
        isEmptyRow (rows.get ⟨k, h⟩) = false
  | [], i0, gs, j, hj => by
    exact Or.inl hj
  | r :: rs, i0, gs, j, hj => by
    unfold gatherGroups at hj
    by_cases h1 : isEmptyRow r
    · simp only [h1, if_true] at hj
      rcases mem_gatherGroups_src rs (i0 + 1) gs j hj with h | ⟨k, hk, hjk, hne⟩
      · exact Or.inl h
      · exact Or.inr ⟨k + 1, by simpa using Nat.succ_lt_succ hk, by omega, hne⟩
    · by_cases h2 : jsTrim r.BillNumber = ""
      · simp only [h1, h2, Bool.false_eq_true, if_false, if_true] at hj
        rcases mem_gatherGroups_src rs (i0 + 1) gs j hj with h | ⟨k, hk, hjk, hne⟩
        · exact Or.inl h
        · exact Or.inr ⟨k + 1, by simpa using Nat.succ_lt_succ hk, by omega, hne⟩
      · simp only [h1, h2, Bool.false_eq_true, if_false] at hj
        rcases mem_gatherGroups_src rs (i0 + 1) _ j hj with h | ⟨k, hk, hjk, hne⟩
        · rcases mem_grpIdxs_insertRow h with h' | h'
          · exact Or.inl h'
          · refine Or.inr ⟨0, by simp, by omega, ?_⟩
            simpa using eq_false_of_ne_true h1
        · exact Or.inr ⟨k + 1, by simpa using Nat.succ_lt_succ hk, by omega, hne⟩

/-- C6: a fully empty row validates to an empty error list, the execute
pass contains the skipped "Empty row" result at its index, and the row is
excluded before grouping (its index belongs to no group), so no external
call is attributable to it. -/
theorem empty_rows_skipped (env : Env) (s : ProcessingSettings)
    (rows : List CSVRow) (files keys : List String) (k : Nat)
    (h : k < rows.length) (he : isEmptyRow (rows.get ⟨k, h⟩) = true) :
    validateRow env s (rows.get ⟨k, h⟩) k = [] ∧
    (⟨k, emptyRowRes⟩ : ProcessingResult) ∈ (processAll env s rows files keys).1 ∧
    k ∉ grpIdxs (buildGroups rows) := by
  refine ⟨by simp only [validateRow]; rw [he]; simp, ?_, ?_⟩
  · unfold processAll
    refine List.mem_append_left _ ?_
    have := exec_pre_mem_empty rows 0 k h he
    simpa using this
  · intro hmem
    rcases mem_gatherGroups_src rows 0 [] k hmem with h0 | ⟨k', h', hk', hne⟩
    · simp [grpIdxs] at h0
    · have hkk : k' = k := by omega
      subst hkk
      exact absurd (show isEmptyRow (rows.get ⟨k', h⟩) = false from hne)
        (by simpa using he)

/-- C6 witness: the all-blank row at index 0 of a one-row batch. -/
theorem empty_rows_skipped_witness :
    (⟨0, emptyRowRes⟩ : ProcessingResult) ∈
      (processAll okEnv settings0 [blankRow] [] []).1 :=
  (empty_rows_skipped okEnv settings0 [blankRow] [] [] 0 (by decide)
    (by decide)).2.1

lemma insertRow_keys (k : String) (r : CSVRow) (i : Nat) :
    ∀ gs : List Group, (insertRow k r i gs).map Group.key =
      if k ∈ gs.map Group.key then gs.map Group.key
      else gs.map Group.key ++ [k]
  | [] => by simp [insertRow]
  | g :: gs => by
    unfold insertRow
    by_cases hk : g.key = k
    · simp [hk]
    · simp only [hk, if_false, List.map_cons, insertRow_keys k r i gs]
      by_cases hm : k ∈ gs.map Group.key
      · simp [hm, Ne.symm hk]
      · simp [hm, Ne.symm hk]

lemma gather_keys_nodup :
    ∀ (rows : List CSVRow) (i0 : Nat) (gs : List Group),
    (gs.map Group.key).Nodup → ((gatherGroups i0 gs rows).map Group.key).Nodup
  | [], _, gs, h => h
  | r :: rs, i0, gs, h => by
    unfold gatherGroups
    by_cases h1 : isEmptyRow r
    · simp only [h1, if_true]
      exact gather_keys_nodup rs (i0 + 1) gs h
    · by_cases h2 : jsTrim r.BillNumber = ""
      · simp only [h1, h2, Bool.false_eq_true, if_false, if_true]
        exact gather_keys_nodup rs (i0 + 1) gs h
      · simp only [h1, h2, Bool.false_eq_true, if_false]
        refine gather_keys_nodup rs (i0 + 1) _ ?_
        rw [insertRow_keys]
        by_cases hm : jsTrim r.BillNumber ∈ gs.map Group.key
        · simpa [hm] using h
        · simp [hm, List.nodup_append, h]

/-- Well-formedness of a group built by the grouping loop: non-empty rows,
index list in lockstep with rows, strictly increasing indices, all below
the bound. -/
def GroupWF (bound : Nat) (g : Group) : Prop :=
  g.rows ≠ [] ∧ g.rows.length = g.idxs.length ∧
  List.Sorted (· < ·) g.idxs ∧ ∀ j ∈ g.idxs, j < bound

lemma GroupWF.mono {b b' : Nat} (h : b ≤ b') {g : Group} (hg : GroupWF b g) :
    GroupWF b' g :=
  ⟨hg.1, hg.2.1, hg.2.2.1, fun j hj => lt_of_lt_of_le (hg.2.2.2 j hj) h⟩

lemma insertRow_wf (k : String) (r : CSVRow) (i : Nat) :
    ∀ gs : List Group, (∀ g ∈ gs, GroupWF i g) →
    ∀ g ∈ insertRow k r i gs, GroupWF (i + 1) g
  | [], _, g, hg => by
    simp only [insertRow, List.mem_singleton] at hg
    subst hg
    exact ⟨by simp, by simp, by simp, by simp⟩
  | g0 :: gs, hwf, g, hg => by
    unfold insertRow at hg
    by_cases hk : g0.key = k
    · simp only [hk, if_true, List.mem_cons] at hg
      rcases hg with rfl | hg
      · have h0 := hwf g0 (by simp)
        refine ⟨by simp, by simp [h0.2.1], ?_, ?_⟩
        · rw [List.Sorted, List.pairwise_append]
          exact ⟨h0.2.2.1, by simp, by simpa using h0.2.2.2⟩
        · intro j hj
          rcases List.mem_append.mp hj with hj | hj
          · exact lt_of_lt_of_le (h0.2.2.2 j hj) (Nat.le_succ i)
          · simp only [List.mem_singleton] at hj
            omega
      · exact (hwf g (List.mem_cons_of_mem _ hg)).mono (Nat.le_succ i)
    · simp only [hk, if_false, List.mem_cons] at hg
      rcases hg with rfl | hg
      · exact (hwf g (by simp)).mono (Nat.le_succ i)
      · exact insertRow_wf k r i gs
          (fun g' hg' => hwf g' (List.mem_cons_of_mem _ hg')) g hg

lemma gather_wf :
    ∀ (rows : List CSVRow) (i0 : Nat) (gs : List Group),
    (∀ g ∈ gs, GroupWF i0 g) →
    ∀ g ∈ gatherGroups i0 gs rows, GroupWF (i0 + rows.length) g
  | [], i0, gs, hwf, g, hg => by
    simpa using hwf g hg
  | r :: rs, i0, gs, hwf, g, hg => by
    unfold gatherGroups at hg
    have heq : (i0 + 1) + rs.length = i0 + (r :: rs).length := by
      simp
      omega
    by_cases h1 : isEmptyRow r
    · rw [h1] at hg
      simp only [if_true] at hg
      have := gather_wf rs (i0 + 1) gs
        (fun g' hg' => (hwf g' hg').mono (Nat.le_succ i0)) g hg
      rwa [heq] at this
    · by_cases h2 : jsTrim r.BillNumber = ""
      · simp only [h1, h2, Bool.false_eq_true, if_false, if_true] at hg
        have := gather_wf rs (i0 + 1) gs
          (fun g' hg' => (hwf g' hg').mono (Nat.le_succ i0)) g hg
        rwa [heq] at this
      · simp only [h1, h2, Bool.false_eq_true, if_false] at hg
        have := gather_wf rs (i0 + 1) _
          (insertRow_wf (jsTrim r.BillNumber) r i0 gs hwf) g hg
        rwa [heq] at this

/-- Insertion-ordered deduplication (first occurrence kept), the order in
which a JS `Map` enumerates first-seen keys. -/
def dedupAppend (acc : List String) : List String → List String
  | [] => acc
  | k :: ks => if k ∈ acc then dedupAppend acc ks else dedupAppend (acc ++ [k]) ks

/-- The grouping keys of the rows eligible for grouping (non-empty, with a
non-blank trimmed bill number), in input order. -/
def eligibleKeys (rows : List CSVRow) : List String :=
  (rows.filter (fun r => !isEmptyRow r && !(jsTrim r.BillNumber == ""))).map
    (fun r => jsTrim r.BillNumber)

lemma gather_keys_eq :
    ∀ (rows : List CSVRow) (i0 : Nat) (gs : List Group),
    (gatherGroups i0 gs rows).map Group.key =
      dedupAppend (gs.map Group.key) (eligibleKeys rows)
  | [], _, gs => by simp [gatherGroups, eligibleKeys, dedupAppend]
  | r :: rs, i0, gs => by
    unfold gatherGroups
    by_cases h1 : isEmptyRow r
    · simp only [h1, if_true]
      rw [gather_keys_eq rs (i0 + 1) gs]
      simp [eligibleKeys, h1]
    · by_cases h2 : jsTrim r.BillNumber = ""
      · simp only [h1, h2, Bool.false_eq_true, if_false, if_true]
        rw [gather_keys_eq rs (i0 + 1) gs]
        simp [eligibleKeys, h1, h2]
      · simp only [h1, h2, Bool.false_eq_true, if_false]
        rw [gather_keys_eq rs (i0 + 1) _]
        have he : eligibleKeys (r :: rs) =
            jsTrim r.BillNumber :: eligibleKeys rs := by
          simp [eligibleKeys, h1, h2]
        rw [he, insertRow_keys]
        by_cases hm : jsTrim r.BillNumber ∈ gs.map Group.key
        · simp [dedupAppend, hm]
        · simp [dedupAppend, hm]

lemma runGroups_mem (env : Env) (s : ProcessingSettings) (files : List String) :
    ∀ (gs : List Group) (keys : List String) (g : Group), g ∈ gs →
    ∃ keys0, ∀ i ∈ g.idxs,
      (⟨i, (processBillGroup env s g.key g.rows g.idxs files keys0).1⟩ :
        ProcessingResult) ∈ (runGroups env s files gs keys).1
  | [], _, g, hg => absurd hg (by simp)
  | g0 :: gs, keys, g, hg => by
    rcases List.mem_cons.mp hg with rfl | hg
    · refine ⟨keys, fun i hi => ?_⟩
      unfold runGroups
      refine List.mem_append_left _ ?_
      exact List.mem_map.mpr ⟨i, hi, rfl⟩
    · obtain ⟨keys0, hk⟩ := runGroups_mem env s files gs
        (processBillGroup env s g0.key g0.rows g0.idxs files keys).2.1 g hg
      refine ⟨keys0, fun i hi => ?_⟩
      unfold runGroups
      exact List.mem_append_right _ (hk i hi)

/-- C7: rows sharing one trimmed bill number form exactly one group (group
keys are duplicate-free and appear in first-seen input order), rows inside
a group keep input order (indices strictly increasing, in lockstep with the
rows); in the execute pass every row of a group receives the identical
group result (only `rowIndex` differs), and in dry-run every row of a group
receives an identical actions list and an identical error list. -/
theorem grouping_fanout (env : Env) (s : ProcessingSettings)
    (files keys : List String) (rows : List CSVRow) :
    ((buildGroups rows).map Group.key).Nodup ∧
    (buildGroups rows).map Group.key = dedupAppend [] (eligibleKeys rows) ∧
    (∀ g ∈ buildGroups rows, g.rows ≠ [] ∧ g.rows.length = g.idxs.length ∧
      List.Sorted (· < ·) g.idxs) ∧
    (∀ g ∈ buildGroups rows, ∃ res : GroupRes, ∀ i ∈ g.idxs,
      (⟨i, res⟩ : ProcessingResult) ∈ (processAll env s rows files keys).1) ∧
    (∀ g ∈ buildGroups rows, ∃ acts errs, ∀ i ∈ g.idxs,
      (⟨i, acts, [], errs⟩ : DryRunResult) ∈ dryRun env s rows) := by
  refine ⟨gather_keys_nodup rows 0 [] (by simp), by
    simpa using gather_keys_eq rows 0 [], ?_, ?_, ?_⟩
  · intro g hg
    have := gather_wf rows 0 [] (by simp) g hg
    exact ⟨this.1, this.2.1, this.2.2.1⟩
  · intro g hg
    obtain ⟨keys0, hk⟩ := runGroups_mem env s files (buildGroups rows) keys g hg
    refine ⟨(processBillGroup env s g.key g.rows g.idxs files keys0).1,
      fun i hi => ?_⟩
    unfold processAll
    exact List.mem_append_right _ (hk i hi)
  · intro g hg
    have hwf := gather_wf rows 0 [] (by simp) g hg
    have hne := hwf.1
    have hsub : ∀ x ∈ dryRunGroup env s g, x ∈ dryRun env s rows := by
      intro x hx
      unfold dryRun
      refine List.mem_append_right _ ?_
      exact List.mem_flatten.mpr ⟨dryRunGroup env s g,
        List.mem_map.mpr ⟨g, hg, rfl⟩, hx⟩
    cases hr : g.rows with
    | nil => exact absurd hr hne
    | cons fr rest =>
      by_cases hce : (collectGroupErrors env s g.rows g.idxs).isEmpty
      · refine ⟨dryRunActions s g.key g.rows fr, [], fun i hi => ?_⟩
        refine hsub _ ?_
        unfold dryRunGroup
        rw [hr]
        have hce' : (collectGroupErrors env s (fr :: rest) g.idxs).isEmpty := by
          rwa [hr] at hce
        simp only [hce', if_true]
        rw [← hr]
        exact List.mem_map.mpr ⟨i, hi, rfl⟩
      · refine ⟨[], collectGroupErrors env s g.rows g.idxs, fun i hi => ?_⟩
        refine hsub _ ?_
        unfold dryRunGroup
        rw [hr]
        have hce' : ¬ (collectGroupErrors env s (fr :: rest) g.idxs).isEmpty := by
          rwa [hr] at hce
        simp only [hce', if_false]
        rw [← hr]
        exact List.mem_map.mpr ⟨i, hi, rfl⟩

/-- C7 witness: the one-group batch `[fullRow]`, whose single group carries
index 0. -/
theorem grouping_fanout_witness :
    ∃ res : GroupRes, ∀ i ∈ (⟨"B1", [fullRow], [0]⟩ : Group).idxs,
      (⟨i, res⟩ : ProcessingResult) ∈
        (processAll okEnv settings0 [fullRow] [] []).1 :=
  (grouping_fanout okEnv settings0 [] [] [fullRow]).2.2.2.1
    ⟨"B1", [fullRow], [0]⟩ (by decide)

lemma attachToBill_length (env : Env) (files : List String) (billId : String) :
    ∀ names : List String,
    (attachToBill env files billId names).1.length = names.length
  | [] => rfl
  | n :: rest => by
    unfold attachToBill
    by_cases hf : n ∈ files
    · simp only [hf, if_true]
      cases env.uploadAttachment n "Bill" billId <;>
        simp [attachToBill_length env files billId rest]
    · simp [hf, attachToBill_length env files billId rest]

lemma attachToBill_missing (env : Env) (files : List String) (billId : String) :
    ∀ (names : List String) (n : String), n ∈ names → n ∉ files →
    (⟨n, none, .error, some "File not found in uploads"⟩ : AttachmentResult) ∈
      (attachToBill env files billId names).1
  | [], n, hn, _ => absurd hn (by simp)
  | n0 :: rest, n, hn, hnf => by
    unfold attachToBill
    rcases List.mem_cons.mp hn with rfl | hn'
    · simp only [hnf, if_false]
      exact List.mem_cons_self _ _
    · have ih := attachToBill_missing env files billId rest n hn' hnf
      by_cases hf : n0 ∈ files
      · simp only [hf, if_true]
        cases env.uploadAttachment n0 "Bill" billId <;>
          exact List.mem_cons_of_mem _ ih
      · simp only [hf, if_false]
        exact List.mem_cons_of_mem _ ih

lemma mem_dedupFoldTrim :
    ∀ (l acc : List String) (n : String),
    n ∈ l.foldl (fun a f => if jsTrim f ∈ a then a else a ++ [jsTrim f]) acc ↔
      (n ∈ acc ∨ ∃ f ∈ l, n = jsTrim f)
  | [], acc, n => by simp
  | f :: fs, acc, n => by
    rw [List.foldl_cons]
    by_cases hm : jsTrim f ∈ acc
    · rw [if_pos hm, mem_dedupFoldTrim fs acc n]
      constructor
      · rintro (h | ⟨f', hf', rfl⟩)
        · exact Or.inl h
        · exact Or.inr ⟨f', by simp [hf'], rfl⟩
      · rintro (h | ⟨f', hf', rfl⟩)
        · exact Or.inl h
        · rcases List.mem_cons.mp hf' with rfl | hf''
          · exact Or.inl hm
          · exact Or.inr ⟨f', hf'', rfl⟩
    · rw [if_neg hm, mem_dedupFoldTrim fs _ n]
      constructor
      · rintro (h | ⟨f', hf', rfl⟩)
        · rcases List.mem_append.mp h with h' | h'
          · exact Or.inl h'
          · exact Or.inr ⟨f, by simp, by simpa using h'⟩
        · exact Or.inr ⟨f', by simp [hf'], rfl⟩
      · rintro (h | ⟨f', hf', rfl⟩)
        · exact Or.inl (List.mem_append_left _ h)
        · rcases List.mem_cons.mp hf' with rfl | hf''
          · exact Or.inl (List.mem_append_right _ (by simp))
          · exact Or.inr ⟨f', hf'', rfl⟩

lemma dedupFoldTrim_nodup :
    ∀ (l acc : List String), acc.Nodup →
    (l.foldl (fun a f => if jsTrim f ∈ a then a else a ++ [jsTrim f]) acc).Nodup
  | [], _, h => h
  | f :: fs, acc, h => by
    rw [List.foldl_cons]
    by_cases hm : jsTrim f ∈ acc
    · rw [if_pos hm]
      exact dedupFoldTrim_nodup fs acc h
    · rw [if_neg hm]
      exact dedupFoldTrim_nodup fs _ (by simp [List.nodup_append, h, hm])

lemma mem_collectFileNames_aux :
    ∀ (rows : List CSVRow) (acc : List String) (n : String),
    n ∈ rows.foldl
      (fun acc row =>
        ((jsSplit row.AttachmentFiles).filter (fun f => jsTrim f ≠ "")).foldl
          (fun acc2 f => if jsTrim f ∈ acc2 then acc2 else acc2 ++ [jsTrim f]) acc)
      acc ↔
    (n ∈ acc ∨ ∃ r ∈ rows, ∃ f ∈ jsSplit r.AttachmentFiles,
      jsTrim f ≠ "" ∧ n = jsTrim f)
  | [], acc, n => by simp
  | r :: rs, acc, n => by
    rw [List.foldl_cons, mem_collectFileNames_aux rs _ n]
    rw [mem_dedupFoldTrim]
    constructor
    · rintro ((h | ⟨f, hf, rfl⟩) | ⟨r', hr', f, hf, hft, rfl⟩)
      · exact Or.inl h
      · rcases List.mem_filter.mp hf with ⟨hf1, hf2⟩
        exact Or.inr ⟨r, by simp, f, hf1, by simpa using hf2, rfl⟩
      · exact Or.inr ⟨r', by simp [hr'], f, hf, hft, rfl⟩
    · rintro (h | ⟨r', hr', f, hf, hft, rfl⟩)
      · exact Or.inl (Or.inl h)
      · rcases List.mem_cons.mp hr' with rfl | hr''
        · exact Or.inl (Or.inr ⟨f, List.mem_filter.mpr ⟨hf, by simpa using hft⟩, rfl⟩)
        · exact Or.inr ⟨r', hr'', f, hf, hft, rfl⟩

lemma collectFileNames_nodup_aux :
    ∀ (rows : List CSVRow) (acc : List String), acc.Nodup →
    (rows.foldl
      (fun acc row =>
        ((jsSplit row.AttachmentFiles).filter (fun f => jsTrim f ≠ "")).foldl
          (fun acc2 f => if jsTrim f ∈ acc2 then acc2 else acc2 ++ [jsTrim f]) acc)
      acc).Nodup
  | [], _, h => h
  | r :: rs, acc, h => by
    rw [List.foldl_cons]
    exact collectFileNames_nodup_aux rs _ (dedupFoldTrim_nodup _ acc h)

/-- Env with the upload operation replaced, everything else unchanged. -/
def setUploader (e : Env)
    (u : String → String → String → Except Fault String) : Env :=
  ⟨e.findCustomerByName, e.createCustomer, e.findVendorByName, e.createVendor,
   e.findDepartmentByName, e.findClassByName, e.getExpenseAccount,
   e.createBill, u, e.createInvoice, e.parseDate, e.validateAmount⟩

lemma afterBill_upload_env (env : Env)
    (u : String → String → String → Except Fault String)
    (s : ProcessingSettings) (firstRow : CSVRow) (bn custId vendId : String)
    (subIds : List String) (nl : Nat) (files names : List String)
    (billId : String) (keys : List String) :
    (afterBill (setUploader env u) s firstRow bn custId vendId subIds nl files
      names billId keys).1.status =
    (afterBill env s firstRow bn custId vendId subIds nl files names billId
      keys).1.status := by
  unfold afterBill setUploader
  cases hci : env.createInvoice (buildInvoice (subIds.headD "")
      ((env.parseDate firstRow.InvoiceDate s.strictDateParsing).getD "")
      firstRow.PONumber firstRow.PointOfContact (invoiceCurrencyArg s firstRow)) with
  | error f => simp only [hci]
  | ok invId => simp only [hci]

/-- C8: every filename of the group-wide attachment set yields exactly one
`AttachmentResult` (one failed upload never suppresses the others); a name
absent from the upload map yields the error result
"File not found in uploads" without throwing; the set is deduplicated and
consists of the trimmed non-blank entries of the rows'
semicolon-separated `AttachmentFiles`; and the group's overall status is
unchanged when the upload operation is replaced by any other — attachment
outcomes (invoice attachments included) never change the status by
themselves. -/
theorem attachment_independence (env : Env)
    (u : String → String → String → Except Fault String)
    (s : ProcessingSettings) (firstRow : CSVRow) (bn custId vendId : String)
    (subIds : List String) (nl : Nat) (files names : List String)
    (billId : String) (keys : List String) (rows : List CSVRow) :
    ((attachToBill env files billId names).1.length = names.length) ∧
    (∀ n ∈ names, n ∉ files →
      (⟨n, none, .error, some "File not found in uploads"⟩ : AttachmentResult) ∈
        (attachToBill env files billId names).1) ∧
    (collectFileNames rows).Nodup ∧
    (∀ n, n ∈ collectFileNames rows ↔
      ∃ r ∈ rows, ∃ f ∈ jsSplit r.AttachmentFiles,
        jsTrim f ≠ "" ∧ n = jsTrim f) ∧
    ((afterBill (setUploader env u) s firstRow bn custId vendId subIds nl files
        names billId keys).1.status =
     (afterBill env s firstRow bn custId vendId subIds nl files names billId
        keys).1.status) := by
  refine ⟨attachToBill_length env files billId names,
    fun n hn hnf => attachToBill_missing env files billId names n hn hnf,
    collectFileNames_nodup_aux rows [] (by simp),
    fun n => ?_,
    afterBill_upload_env env u s firstRow bn custId vendId subIds nl files
      names billId keys⟩
  have := mem_collectFileNames_aux rows [] n
  simpa [collectFileNames] using this

/-- C8 witness: a concrete missing attachment is reported as an error
result without failing the others. -/
theorem attachment_independence_witness :
    (⟨"missing.pdf", none, .error, some "File not found in uploads"⟩ :
      AttachmentResult) ∈
      (attachToBill okEnv ["present.pdf"] "BILL1"
        ["present.pdf", "missing.pdf"]).1 :=
  (attachment_independence okEnv (fun _ _ _ => .ok "X") settings0 fullRow "B1"
    "c" "v" [] 0 ["present.pdf"] ["present.pdf", "missing.pdf"] "BILL1" [] []).2.1
    "missing.pdf" (by decide) (by decide)

lemma collectGroupErrors_nil_iff (env : Env) (s : ProcessingSettings) :
    ∀ (rows : List CSVRow) (idxs : List Nat),
    collectGroupErrors env s rows idxs = [] ↔
      groupValidate env s rows idxs = none
  | [], _ => by simp [collectGroupErrors, groupValidate]
  | _ :: _, [] => by simp [collectGroupErrors, groupValidate]
  | r :: rs, i :: is => by
    unfold collectGroupErrors groupValidate
    by_cases he : (validateRow env s r i).isEmpty
    · have : validateRow env s r i = [] := by simpa using he
      simp only [he, if_true, this, List.map_nil, List.nil_append]
      exact collectGroupErrors_nil_iff env s rs is
    · have : validateRow env s r i ≠ [] := by simpa using he
      simp [he, this]

/-- The row at index `i` is non-empty but has a blank trimmed bill number
(it is rejected before grouping by both passes). -/
def missingBillAt (rows : List CSVRow) (i : Nat) : Prop :=
  ∃ h : i < rows.length, isEmptyRow (rows.get ⟨i, h⟩) = false ∧
    jsTrim (rows.get ⟨i, h⟩).BillNumber = ""

lemma mem_dryPre_iff :
    ∀ (rows : List CSVRow) (i0 : Nat) (d : DryRunResult),
    d ∈ preResults (fun _ => ([] : List DryRunResult))
        (fun j => [⟨j, [], [], ["BillNumber is required"]⟩]) i0 rows ↔
      ∃ k, ∃ h : k < rows.length, isEmptyRow (rows.get ⟨k, h⟩) = false ∧
        jsTrim (rows.get ⟨k, h⟩).BillNumber = "" ∧
        d = ⟨i0 + k, [], [], ["BillNumber is required"]⟩
  | [], i0, d => by simp [preResults]
  | r :: rs, i0, d => by
    unfold preResults
    by_cases h1 : isEmptyRow r
    · simp only [h1, if_true, List.nil_append]
      rw [mem_dryPre_iff rs (i0 + 1) d]
      constructor
      · rintro ⟨k, hk, hne, hbk, hd⟩
        exact ⟨k + 1, Nat.succ_lt_succ hk, hne, hbk,
          by rw [hd]; congr 1; omega⟩
      · rintro ⟨k, hk, hne, hbk, hd⟩
        cases k with
        | zero => exact absurd hne (by simp [h1])
        | succ k' =>
          exact ⟨k', Nat.lt_of_succ_lt_succ hk, hne, hbk,
            by rw [hd]; congr 1; omega⟩
    · by_cases h2 : jsTrim r.BillNumber = ""
      · simp only [h1, h2, Bool.false_eq_true, if_false, if_true,
          List.singleton_append, List.mem_cons]
        rw [mem_dryPre_iff rs (i0 + 1) d]
        constructor
        · rintro (hd | ⟨k, hk, hne, hbk, hd⟩)
          · refine ⟨0, by simp, ?_, ?_, by rw [hd]; simp⟩
            · simpa using eq_false_of_ne_true h1
            · simpa using h2
          · exact ⟨k + 1, Nat.succ_lt_succ hk, hne, hbk,
              by rw [hd]; congr 1; omega⟩
        · rintro ⟨k, hk, hne, hbk, hd⟩
          cases k with
          | zero => exact Or.inl (by rw [hd]; simp)
          | succ k' =>
            exact Or.inr ⟨k', Nat.lt_of_succ_lt_succ hk, hne, hbk,
              by rw [hd]; congr 1; omega⟩
      · simp only [h1, h2, Bool.false_eq_true, if_false]
        rw [mem_dryPre_iff rs (i0 + 1) d]
        constructor
        · rintro ⟨k, hk, hne, hbk, hd⟩
          exact ⟨k + 1, Nat.succ_lt_succ hk, hne, hbk,
            by rw [hd]; congr 1; omega⟩
        · rintro ⟨k, hk, hne, hbk, hd⟩
          cases k with
          | zero => exact absurd hbk h2
          | succ k' =>
            exact ⟨k', Nat.lt_of_succ_lt_succ hk, hne, hbk,
              by rw [hd]; congr 1; omega⟩

lemma exec_pre_mem_missing :
    ∀ (rows : List CSVRow) (i0 k : Nat) (h : k < rows.length),
    isEmptyRow (rows.get ⟨k, h⟩) = false →
    jsTrim (rows.get ⟨k, h⟩).BillNumber = "" →
    (⟨i0 + k, missingBillRes⟩ : ProcessingResult) ∈
      preResults (fun j => [(⟨j, emptyRowRes⟩ : ProcessingResult)])
        (fun j => [⟨j, missingBillRes⟩]) i0 rows
  | [], _, k, h, _, _ => absurd h (by simp)
  | r :: rs, i0, 0, _, hne, hbk => by
    unfold preResults
    simp only [List.get] at hne hbk
    simp [hne, hbk]
  | r :: rs, i0, k + 1, h, hne, hbk => by
    simp only [List.get] at hne hbk
    have hk : k < rs.length := by simpa using Nat.lt_of_succ_lt_succ h
    have ih := exec_pre_mem_missing rs (i0 + 1) k hk hne hbk
    have heq : i0 + (k + 1) = (i0 + 1) + k := by omega
    rw [heq]
    exact preResults_tail_subset _ _ r rs i0 _ ih

lemma mem_dryRunGroup_elim (env : Env) (s : ProcessingSettings) (g : Group)
    (d : DryRunResult) (hd : d ∈ dryRunGroup env s g) :
    d.errors = [] ∨
    (collectGroupErrors env s g.rows g.idxs ≠ [] ∧ d.rowIndex ∈ g.idxs ∧
      d.errors = collectGroupErrors env s g.rows g.idxs) := by
  unfold dryRunGroup at hd
  cases hr : g.rows with
  | nil => rw [hr] at hd; exact absurd hd (by simp)
  | cons fr rest =>
    rw [hr] at hd
    by_cases hce : (collectGroupErrors env s (fr :: rest) g.idxs).isEmpty
    · simp only [hce, if_true] at hd
      rcases List.mem_map.mp hd with ⟨i, _, rfl⟩
      exact Or.inl rfl
    · simp only [hce, Bool.false_eq_true, if_false] at hd
      rcases List.mem_map.mp hd with ⟨i, hi, rfl⟩
      exact Or.inr ⟨by simpa using hce, by simpa using hi, rfl⟩

lemma mem_dryRunGroup_intro (env : Env) (s : ProcessingSettings) (g : Group)
    (i : Nat) (hi : i ∈ g.idxs) (hne : g.rows ≠ [])
    (hce : collectGroupErrors env s g.rows g.idxs ≠ []) :
    (⟨i, [], [], collectGroupErrors env s g.rows g.idxs⟩ : DryRunResult) ∈
      dryRunGroup env s g := by
  unfold dryRunGroup
  cases hr : g.rows with
  | nil => exact absurd hr hne
  | cons fr rest =>
    have hce' : ¬ (collectGroupErrors env s (fr :: rest) g.idxs).isEmpty := by
      rw [← hr]
      simpa using hce
    simp only [hce', Bool.false_eq_true, if_false]
    exact List.mem_map.mpr ⟨i, hi, rfl⟩

/-- C9: for every input, the set of row indices reported with a non-empty
error list by dry-run is exactly the set of rows rejected before grouping
(non-empty, blank bill number) together with the rows of groups failing
validation; the execute pass reports exactly those rows as pre-submission
errors: rejected rows receive the "BillNumber is required" error result,
and a group failing validation yields an error result for its rows with an
empty call trace and unchanged key set, whatever the key-set state. Both
passes run the same grouping and validation definitions. -/
theorem dryrun_execute_validation_parity (env : Env) (s : ProcessingSettings)
    (rows : List CSVRow) (files keys : List String) :
    (∀ i, (∃ d ∈ dryRun env s rows, d.rowIndex = i ∧ d.errors ≠ []) ↔
      (missingBillAt rows i ∨ ∃ g ∈ buildGroups rows, i ∈ g.idxs ∧
        groupValidate env s g.rows g.idxs ≠ none)) ∧
    (∀ i, missingBillAt rows i →
      (⟨i, missingBillRes⟩ : ProcessingResult) ∈
        (processAll env s rows files keys).1) ∧
    (∀ g ∈ buildGroups rows, ∀ ks, groupValidate env s g.rows g.idxs ≠ none →
      ∃ msg, processBillGroup env s g.key g.rows g.idxs files ks =
        (valErrRes msg, ks, [])) ∧
    (∀ i, (∃ g ∈ buildGroups rows, i ∈ g.idxs ∧
        groupValidate env s g.rows g.idxs ≠ none) →
      ∃ p ∈ (processAll env s rows files keys).1, p.rowIndex = i ∧
        p.res.status = .error) := by
  have hgrp : ∀ g ∈ buildGroups rows, ∀ ks,
      groupValidate env s g.rows g.idxs ≠ none →
      ∃ msg, processBillGroup env s g.key g.rows g.idxs files ks =
        (valErrRes msg, ks, []) := by
    intro g _ ks hgv
    cases hr : g.rows with
    | nil =>
      rw [hr] at hgv
      exact absurd rfl hgv
    | cons fr rest =>
      rw [hr] at hgv
      cases hv : groupValidate env s (fr :: rest) g.idxs with
      | none => exact absurd hv hgv
      | some msg =>
        refine ⟨msg, ?_⟩
        unfold processBillGroup
        simp [hv]
  refine ⟨?_, ?_, hgrp, ?_⟩
  · intro i
    constructor
    · rintro ⟨d, hd, rfl, herr⟩
      unfold dryRun at hd
      rcases List.mem_append.mp hd with hpre | hgs
      · rcases (mem_dryPre_iff rows 0 d).mp hpre with ⟨k, hk, hne, hbk, hdk⟩
        subst hdk
        left
        show missingBillAt rows (0 + k)
        rw [Nat.zero_add]
        exact ⟨hk, hne, hbk⟩
      · rcases List.mem_flatten.mp hgs with ⟨l, hl, hdl⟩
        rcases List.mem_map.mp hl with ⟨g, hg, rfl⟩
        rcases mem_dryRunGroup_elim env s g d hdl with h0 | ⟨hc, hidx, _⟩
        · exact absurd h0 herr
        · refine Or.inr ⟨g, hg, hidx, ?_⟩
          intro hnone
          exact hc ((collectGroupErrors_nil_iff env s g.rows g.idxs).mpr hnone)
    · rintro (⟨h, hne, hbk⟩ | ⟨g, hg, hif, hgv⟩)
      · refine ⟨⟨i, [], [], ["BillNumber is required"]⟩, ?_, rfl, by simp⟩
        unfold dryRun
        refine List.mem_append_left _ ?_
        refine (mem_dryPre_iff rows 0 _).mpr ⟨i, h, hne, hbk, by simp⟩
      · have hrne : g.rows ≠ [] := by
          intro h0
          rw [h0] at hgv
          exact hgv rfl
        have hc : collectGroupErrors env s g.rows g.idxs ≠ [] := by
          intro h0
          exact hgv ((collectGroupErrors_nil_iff env s g.rows g.idxs).mp h0)
        refine ⟨⟨i, [], [], collectGroupErrors env s g.rows g.idxs⟩, ?_, rfl, hc⟩
        unfold dryRun
        refine List.mem_append_right _ ?_
        exact List.mem_flatten.mpr ⟨dryRunGroup env s g,
          List.mem_map.mpr ⟨g, hg, rfl⟩,
          mem_dryRunGroup_intro env s g i hif hrne hc⟩
  · rintro i ⟨h, hne, hbk⟩
    unfold processAll
    refine List.mem_append_left _ ?_
    have := exec_pre_mem_missing rows 0 i h hne hbk
    simpa using this
  · rintro i ⟨g, hg, hif, hgv⟩
    obtain ⟨keys0, hmem⟩ := runGroups_mem env s files (buildGroups rows) keys g hg
    obtain ⟨msg, hrun⟩ := hgrp g hg keys0 hgv
    refine ⟨⟨i, (processBillGroup env s g.key g.rows g.idxs files keys0).1⟩,
      ?_, rfl, ?_⟩
    · unfold processAll
      exact List.mem_append_right _ (hmem i hif)
    · rw [hrun]
      rfl

/-- C9 witness: the one-row batch `[badRow]` (bill number only) fails
validation in both passes at index 0. -/
theorem dryrun_execute_validation_parity_witness :
    ∃ p ∈ (processAll okEnv settings0 [badRow] [] []).1, p.rowIndex = 0 ∧
      p.res.status = .error :=
  (dryrun_execute_validation_parity okEnv settings0 [badRow] [] []).2.2.2 0
    ⟨⟨"B1", [badRow], [0]⟩, by decide, by decide, by decide⟩

end QBO



